import Mathlib

/-!
# Express / Appwrite user API: response envelopes, error mapping, sanitisation

A shallow embedding of

* `backend/utils/helpers.js` (`successResponse`, `errorResponse`, `asyncHandler`,
  `sanitizeInput`),
* `backend/services/appwriteService.js` (`userService`),
* `backend/api/controllers/appwriteUserController.js` (the six user handlers).

JavaScript values are a small algebraic datatype, the Appwrite SDK and the system
clock are parameters (`World`), and every effect the handlers have (clock reads,
SDK calls, `console.error`, the Express response, calls of `next`) is recorded in
an explicit state (`St`).
-/

namespace Appwrite

/-! ## JavaScript values -/

/-- JavaScript values that occur in request data, SDK results and thrown errors.
`num n` is the Number nearest to the integer `n` (the integer itself when it is a
double), `negZero` is `-0`, `nan` is `NaN`, `infinity` is `Infinity` or, with the
flag set, `-Infinity`. -/
inductive JsVal where
  | undefined
  | null
  | bool (b : Bool)
  | num (n : Int)
  | negZero
  | nan
  | infinity (negative : Bool)
  | str (s : String)
  | arr (xs : List JsVal)
  | obj (props : List (String × JsVal))

/-- Own enumerable properties of a plain object, in insertion order. -/
abbrev Obj := List (String × JsVal)

/-- ToBoolean: the test behind `if (x)`, `!x` and `x || y`. -/
def truthy : JsVal → Bool
  | .undefined => false
  | .null => false
  | .bool b => b
  | .num n => n != 0
  | .negZero => false
  | .nan => false
  | .infinity _ => true
  | .str s => s != ""
  | .arr _ => true
  | .obj _ => true

/-- The expression `a || b`. -/
def jsOr (a b : JsVal) : JsVal := if truthy a then a else b

/-- Own property lookup, `none` when the key is absent. -/
def objGet (o : Obj) (k : String) : Option JsVal := o.lookup k

/-- The expression `o.k` on a plain object: `undefined` when the key is absent. -/
def prop (o : Obj) (k : String) : JsVal := (objGet o k).getD .undefined

/-- Destructuring with a default, `const { k = d } = o`: the default is taken
exactly when the property reads as `undefined`. -/
def propD (o : Obj) (k : String) (d : JsVal) : JsVal :=
  match prop o k with
  | .undefined => d
  | v => v

/-- The statement `delete o.k`. -/
def objDelete (o : Obj) (k : String) : Obj := o.filter fun p => p.1 != k

/-- Writing key `k` in an object literal after a spread: an existing key keeps
its position and takes the new value, a new key is appended. -/
def objSet (o : Obj) (k : String) (v : JsVal) : Obj :=
  if (objGet o k).isSome then o.map fun p => if p.1 == k then (k, v) else p
  else o ++ [(k, v)]

/-- A `TypeError` instance (its message is not modelled). -/
def typeError : JsVal := .obj [("name", .str "TypeError")]

/-- The strict comparison `v === 404`. -/
def is404 : JsVal → Bool
  | .num 404 => true
  | _ => false

/-- Lexicographic `a <= b` on strings, by code point (JavaScript compares UTF-16
code units, which agrees on the Basic Multilingual Plane and so on ISO dates). -/
def jsStrLe : List Char → List Char → Bool
  | [], _ => true
  | _ :: _, [] => false
  | a :: as, b :: bs => if a.toNat < b.toNat then true else if b.toNat < a.toNat then false
      else jsStrLe as bs

/-! ## The outside world: Express request/response, clock, Appwrite SDK -/

/-- The parts of an Express request the handlers read. `body` is the parsed JSON
object (`express.json()`), `query` the parsed query string, `params` the route
parameters. -/
structure Req where
  params : Obj
  query : Obj
  body : Obj

/-- Query directives of `node-appwrite`, kept as opaque terms recording their
arguments. -/
inductive Query where
  | search (field : String) (value : JsVal)
  | equal (field : String) (value : JsVal)
  | limit (n : JsVal)
  | offset (n : JsVal)

/-- Calls made on the `databases` SDK object, with their arguments. -/
inductive SdkCall where
  | createDocument (db coll id : String) (data : JsVal)
  | getDocument (db coll : String) (id : JsVal)
  | listDocuments (db coll : String) (queries : List Query)
  | updateDocument (db coll : String) (id : JsVal) (data : JsVal)
  | deleteDocument (db coll : String) (id : JsVal)

/-- Observable events of one handler run, oldest first: entry into a function of
`userService`, a call on the SDK, a line written by `console.error`. -/
inductive Event where
  | service (fn : String)
  | sdk (call : SdkCall)
  | consoleError (msg : String) (err : JsVal)

/-- Everything outside the program. An SDK call either resolves (`ok`) or rejects
with a thrown value (`error`). `clock n` is the string that the `n`-th evaluation
of `new Date().toISOString()` produces. -/
structure World where
  clock : Nat → String
  DATABASE_ID : String
  USERS : String
  uniqueId : String
  createDocument : String → String → String → JsVal → Except JsVal JsVal
  getDocument : String → String → JsVal → Except JsVal JsVal
  listDocuments : String → String → List Query → Except JsVal JsVal
  updateDocument : String → String → JsVal → JsVal → Except JsVal JsVal
  deleteDocument : String → String → JsVal → Except JsVal JsVal

/-- The Express response object: status code (200 until `res.status` is called)
and the JSON body once `res.json` has been called. -/
structure Res where
  statusCode : Nat
  body : Option JsVal

/-- State threaded through a handler run. -/
structure St where
  ticks : Nat
  events : List Event
  res : Res
  nextCalls : List JsVal

/-- A fresh request: nothing read, nothing logged, status 200, nothing sent. -/
def St.init : St := ⟨0, [], ⟨200, none⟩, []⟩

/-- Effectful computations: a result or a thrown value, and the final state. -/
def Eff (α : Type) : Type := St → Except JsVal α × St

/-- Return a value. -/
def Eff.pure {α : Type} (a : α) : Eff α := fun s => (.ok a, s)

/-- Sequencing; a thrown value skips the continuation. -/
def Eff.bind {α β : Type} (m : Eff α) (f : α → Eff β) : Eff β := fun s =>
  match m s with
  | (.ok a, s1) => f a s1
  | (.error e, s1) => (.error e, s1)

instance : Monad Eff where
  pure := Eff.pure
  bind := Eff.bind

/-- The statement `throw e`. -/
def throwJs {α : Type} (e : JsVal) : Eff α := fun s => (.error e, s)

/-- The statement `try { m } catch (error) { h error }`. -/
def tryCatchJs {α : Type} (m : Eff α) (h : JsVal → Eff α) : Eff α := fun s =>
  match m s with
  | (.ok a, s1) => (.ok a, s1)
  | (.error e, s1) => h e s1

/-- Record an event. -/
def emit (e : Event) : Eff Unit := fun s => (.ok (), { s with events := s.events ++ [e] })

/-- The expression `new Date().toISOString()`: one clock read. -/
def nowISO (w : World) : Eff JsVal := fun s =>
  (.ok (.str (w.clock s.ticks)), { s with ticks := s.ticks + 1 })

/-- The call `console.error(msg, err)`. -/
def consoleError (msg : String) (err : JsVal) : Eff Unit := emit (.consoleError msg err)

/-- The call `res.status(n)`. -/
def resStatus (n : Nat) : Eff Unit := fun s =>
  (.ok (), { s with res := { s.res with statusCode := n } })

/-- The call `res.json(body)`. -/
def resJson (body : JsVal) : Eff Unit := fun s =>
  (.ok (), { s with res := { s.res with body := some body } })

/-- Property read `v.k` for a key that is not a built-in property of primitives
or arrays: a `TypeError` on `undefined` and `null`. -/
def getProp (v : JsVal) (k : String) : Eff JsVal :=
  match v with
  | .undefined => throwJs typeError
  | .null => throwJs typeError
  | .obj o => Eff.pure (prop o k)
  | _ => Eff.pure .undefined

/-! ## `utils/helpers.js` -/

/-- The function `successResponse(data, message = 'Success')`; an omitted argument reads as
`undefined`, which is what triggers a parameter default. -/
def successResponse (w : World) (data : JsVal) (message : JsVal) : Eff JsVal := do
  let message := match message with
    | .undefined => JsVal.str "Success"
    | m => m
  let timestamp ← nowISO w
  return .obj [("success", .bool true), ("message", message), ("data", data),
    ("timestamp", timestamp)]

/-- The function `errorResponse(message = 'An error occurred', code = 'ERROR')`. -/
def errorResponse (w : World) (message : JsVal) (code : JsVal) : Eff JsVal := do
  let message := match message with
    | .undefined => JsVal.str "An error occurred"
    | m => m
  let code := match code with
    | .undefined => JsVal.str "ERROR"
    | c => c
  let timestamp ← nowISO w
  return .obj [("success", .bool false),
    ("error", .obj [("message", message), ("code", code)]),
    ("timestamp", timestamp)]

/-- What the call `fn(req, res, next)` evaluates to when it does not throw: a
plain value or a promise, given with its eventual state. -/
inductive Settle where
  | fulfilled (v : JsVal)
  | rejected (e : JsVal)
  | pending

/-- Return value of a handler call. -/
inductive Ret where
  | value (v : JsVal)
  | promise (p : Settle)

/-- A route handler `(req, res, next) => ...`; `res` and `next` are reached
through the state, a synchronous `throw` is the error of `Eff`. -/
abbrev Handler := Req → Eff Ret

/-- The function `Promise.resolve(x)`: a promise is returned as it is, any other value gives a
promise fulfilled with it. -/
def promiseResolve : Ret → Settle
  | .value v => .fulfilled v
  | .promise p => p

/-- The call `next(e)`. -/
def callNext (e : JsVal) : Eff Unit := fun s =>
  (.ok (), { s with nextCalls := s.nextCalls ++ [e] })

/-- The function `asyncHandler(fn)`: `(req, res, next) => { Promise.resolve(fn(req, res, next)).catch(next); }`.
The argument `fn(req, res, next)` is evaluated first, so a synchronous throw
leaves the wrapper; `.catch(next)` runs `next(e)` when the promise rejects. -/
def asyncHandler (fn : Handler) : Req → Eff Unit := fun req => do
  let r ← fn req
  match promiseResolve r with
  | .rejected e => callNext e
  | .fulfilled _ => return ()
  | .pending => return ()

/-- An `async (req, res) => { body }` function: calling it never throws, it
returns a promise that rejects with whatever `body` throws and is fulfilled
otherwise (the fulfilment value is never read and is left `undefined`). -/
def asyncFn (body : Req → Eff Unit) : Handler := fun req s =>
  match body req s with
  | (.ok _, s1) => (.ok (.promise (.fulfilled .undefined)), s1)
  | (.error e, s1) => (.ok (.promise (.rejected e)), s1)

/-- WhiteSpace and LineTerminator code points (what `trim` and `parseInt` skip). -/
def isJsSpace (c : Char) : Bool :=
  let n := c.toNat
  n == 0x09 || n == 0x0A || n == 0x0B || n == 0x0C || n == 0x0D || n == 0x20 ||
  n == 0xA0 || n == 0x1680 || (0x2000 ≤ n && n ≤ 0x200A) || n == 0x2028 ||
  n == 0x2029 || n == 0x202F || n == 0x205F || n == 0x3000 || n == 0xFEFF

/-- The function `String.prototype.trim`. -/
def jsTrim (s : List Char) : List Char :=
  ((s.dropWhile isJsSpace).reverse.dropWhile isJsSpace).reverse

/-- ASCII lower-casing; without the `u` flag these are the only case pairs a
regular expression with the `i` flag identifies for ASCII pattern characters. -/
def asciiLower (c : Char) : Char :=
  if 65 ≤ c.toNat ∧ c.toNat ≤ 90 then Char.ofNat (c.toNat + 32) else c

/-- The class `\w`. -/
def isWordChar (c : Char) : Bool :=
  let n := c.toNat
  (48 ≤ n && n ≤ 57) || (65 ≤ n && n ≤ 90) || (97 ≤ n && n ≤ 122) || n == 95

/-- Match the literal `pat` (given in lower case) at the start of `s`, ignoring
ASCII case; the result is the length of the match. -/
def matchLiteralCI : List Char → List Char → Option Nat
  | [], _ => some 0
  | _ :: _, [] => none
  | p :: ps, c :: cs =>
    if asciiLower c == p then (matchLiteralCI ps cs).map fun n => n + 1 else none

/-- Match `/on\w+=/i` at the start of `s`: `on`, the longest run of word
characters (at least one), then `=`. As `=` is not a word character, no shorter
run can succeed where the longest fails. The result is the length of the match. -/
def matchOnHandler (s : List Char) : Option Nat :=
  match s with
  | o :: n :: rest =>
    if asciiLower o == 'o' && asciiLower n == 'n' then
      match rest.takeWhile isWordChar, rest.dropWhile isWordChar with
      | c :: run, '=' :: _ => some (2 + (c :: run).length + 1)
      | _, _ => none
    else none
  | _ => none

/-- Global replacement by the empty string, `s.replace(/re/g, '')`, for a matcher
`m` that gives the length of the match of `re` at the start of its argument:
scan left to right, drop a match and continue after it, otherwise keep one
character. `skip` is the number of characters of the current match still to be
dropped. (The patterns used here never match the empty string.) -/
def removeAll (m : List Char → Option Nat) : Nat → List Char → List Char
  | _, [] => []
  | skip + 1, _ :: cs => removeAll m skip cs
  | 0, c :: cs =>
    match m (c :: cs) with
    | some (len + 1) => removeAll m len cs
    | _ => c :: removeAll m 0 cs

/-- The body of `sanitizeInput` for a string argument:
`input.trim().replace(/[<>]/g, '').replace(/javascript:/gi, '').replace(/on\w+=/gi, '')`. -/
def sanitizeChars (input : List Char) : List Char :=
  let s1 := jsTrim input
  let s2 := s1.filter fun c => !(c == '<' || c == '>')
  let s3 := removeAll (matchLiteralCI "javascript:".data) 0 s2
  removeAll matchOnHandler 0 s3

/-- The function `sanitizeInput(input)`: a value that is not a string is returned as it is. -/
def sanitizeInput : JsVal → JsVal
  | .str s => .str (String.mk (sanitizeChars s.data))
  | v => v

/-- Does the text contain `javascript:` in some letter case? -/
def containsJavascriptProtocol : List Char → Bool
  | [] => false
  | c :: cs => (matchLiteralCI "javascript:".data (c :: cs)).isSome ||
      containsJavascriptProtocol cs

/-! ## JavaScript built-ins used by the controller -/

/-- Round a natural number to the nearest double, ties to even; `none` is the
overflow to `Infinity`. Below `2 ^ 53` every integer is a double; above, the 53
leading bits are kept and the rest rounded, and a result of more than 1024 bits
is beyond the largest double. -/
def roundToDouble (v : Nat) : Option Nat :=
  if v < 2 ^ 53 then some v
  else
    let shift := (Nat.toDigits 2 v).length - 53
    let q := v / 2 ^ shift
    let r := v % 2 ^ shift
    let half := 2 ^ (shift - 1)
    let q1 := if half < r ∨ (r = half ∧ q % 2 = 1) then q + 1 else q
    if (Nat.toDigits 2 (q1 * 2 ^ shift)).length ≤ 1024 then some (q1 * 2 ^ shift) else none

/-- Drop the trailing zeros of a digit list. -/
def stripZeros (ds : List Char) : List Char :=
  (ds.reverse.dropWhile fun c => c == '0').reverse

/-- For a double `x` of at least `2 ^ 53`: the pair `(s, p)` with the fewest
digits in `s` such that `s * 10 ^ p` rounds to `x`; among several, the one closest
to `x`, and the even `s` on a tie (the digits Number::toString prints). Seventeen
digits always suffice. -/
def shortestDigits (x : Nat) : Nat × Nat :=
  let len := (Nat.toDigits 10 x).length
  let pick : Nat → Option (Nat × Nat) := fun k =>
    let p := len - k
    let s0 := x / 10 ^ p
    let ok0 := roundToDouble (s0 * 10 ^ p) == some x
    let ok1 := roundToDouble ((s0 + 1) * 10 ^ p) == some x
    let d0 := x - s0 * 10 ^ p
    let d1 := (s0 + 1) * 10 ^ p - x
    if ok0 && ok1 then
      if d0 < d1 then some (s0, p)
      else if d1 < d0 then some (s0 + 1, p)
      else if s0 % 2 == 0 then some (s0, p) else some (s0 + 1, p)
    else if ok0 then some (s0, p)
    else if ok1 then some (s0 + 1, p)
    else none
  ((List.range 17).findSome? fun i => pick (i + 1)).getD (x, 0)

/-- Number::toString for a non-negative integer-valued double: plain digits up to
21 of them (the shortest digits padded with zeros), exponent form beyond. -/
def natToJsString (x : Nat) : List Char :=
  if x < 2 ^ 53 then Nat.toDigits 10 x
  else
    let sp := shortestDigits x
    let all := Nat.toDigits 10 sp.1
    let n := all.length + sp.2
    let ds := stripZeros all
    if n ≤ 21 then ds ++ List.replicate (n - ds.length) '0'
    else
      let e := Nat.toDigits 10 (n - 1)
      match ds with
      | [] => []
      | [d] => d :: 'e' :: '+' :: e
      | d :: rest => d :: '.' :: (rest ++ 'e' :: '+' :: e)

/-- Number::toString for `num n`: the Number denoted is `n` rounded to a double. -/
def numberToString (n : Int) : String :=
  match roundToDouble n.natAbs with
  | none => if n < 0 then "-Infinity" else "Infinity"
  | some x => String.mk ((if n < 0 then ['-'] else []) ++ natToJsString x)

mutual
/-- ToString. A plain object prints as `[object Object]` through the inherited
`toString`; an own property `toString` shadows it and, being data, is not
callable, and `valueOf` never yields a primitive, so the conversion throws a
`TypeError`. An array prints as its `join`. -/
def jsToString : JsVal → Except JsVal String
  | .undefined => .ok "undefined"
  | .null => .ok "null"
  | .bool b => .ok (if b then "true" else "false")
  | .num n => .ok (numberToString n)
  | .negZero => .ok "0"
  | .nan => .ok "NaN"
  | .infinity negative => .ok (if negative then "-Infinity" else "Infinity")
  | .str s => .ok s
  | .arr xs => joinElems xs
  | .obj o => if (o.lookup "toString").isSome then .error typeError else .ok "[object Object]"
/-- The function `Array.prototype.join` with the separator `,`; the elements are
converted from left to right. -/
def joinElems : List JsVal → Except JsVal String
  | [] => .ok ""
  | [x] => elemStr x
  | x :: y :: rest =>
    match elemStr x with
    | .error e => .error e
    | .ok a =>
      match joinElems (y :: rest) with
      | .error e => .error e
      | .ok b => .ok (a ++ "," ++ b)
/-- An array element inside `join`: `undefined` and `null` print as nothing. -/
def elemStr : JsVal → Except JsVal String
  | .undefined => .ok ""
  | .null => .ok ""
  | v => jsToString v
end

/-- Value of a digit in the given radix. -/
def digitVal (radix : Nat) (c : Char) : Option Nat :=
  let n := c.toNat
  let v : Option Nat :=
    if 48 ≤ n ∧ n ≤ 57 then some (n - 48)
    else if 97 ≤ n ∧ n ≤ 122 then some (n - 87)
    else if 65 ≤ n ∧ n ≤ 90 then some (n - 55)
    else none
  v.filter fun d => d < radix

/-- Read the longest leading run of digits; `none` when there is no digit. -/
def readDigits (radix : Nat) : List Char → Option Nat → Option Nat
  | [], acc => acc
  | c :: cs, acc =>
    match digitVal radix c with
    | some d => readDigits radix cs (some (acc.getD 0 * radix + d))
    | none => acc

/-- The Number for a sign and a magnitude: the magnitude rounded to a double,
`-0` for a negative zero. -/
def toNumber (negative : Bool) (v : Nat) : JsVal :=
  match roundToDouble v with
  | none => .infinity negative
  | some 0 => if negative then .negZero else .num 0
  | some x => .num (if negative then -(x : Int) else (x : Int))

/-- The function `parseInt` on a string: skip white space, an optional sign, an
optional `0x`, then the longest run of digits; `NaN` when that run is empty,
otherwise the Number nearest to the integer read (the correctly rounded result,
as V8 computes it; the standard allows an engine to approximate a decimal run
after its twentieth significant digit). -/
def parseIntChars (s : List Char) : JsVal :=
  let s := s.dropWhile isJsSpace
  let signed : Bool × List Char :=
    match s with
    | '-' :: r => (true, r)
    | '+' :: r => (false, r)
    | _ => (false, s)
  let based : Nat × List Char :=
    match signed.2 with
    | '0' :: 'x' :: r => (16, r)
    | '0' :: 'X' :: r => (16, r)
    | r => (10, r)
  match readDigits based.1 based.2 none with
  | none => .nan
  | some v => toNumber signed.1 v

/-- The function `parseInt(x)`: `x` is converted to a string first, which can
throw. -/
def parseInt (x : JsVal) : Except JsVal JsVal :=
  match jsToString x with
  | .error e => .error e
  | .ok s => .ok (parseIntChars s.data)

/-- Run a pure computation that may throw. -/
def liftExcept {α : Type} (r : Except JsVal α) : Eff α := fun s => (r, s)

/-- The expression `v[0]`: first element of an array, first character of a
string, the property `0` of an object, a `TypeError` on `undefined` and `null`,
`undefined` otherwise. -/
def getIndex0 (v : JsVal) : Eff JsVal :=
  match v with
  | .undefined => throwJs typeError
  | .null => throwJs typeError
  | .arr xs => Eff.pure (xs.head?.getD .undefined)
  | .str s => Eff.pure (match s.data with
      | [] => .undefined
      | c :: _ => .str (String.singleton c))
  | .obj o => Eff.pure (prop o "0")
  | _ => Eff.pure .undefined

/-! ## `services/appwriteService.js`: `userService` -/

/-- The call `await databases.createDocument(db, coll, id, data)`. -/
def sdkCreateDocument (w : World) (db coll id : String) (data : JsVal) : Eff JsVal := fun s =>
  (w.createDocument db coll id data,
    { s with events := s.events ++ [.sdk (.createDocument db coll id data)] })

/-- The call `await databases.getDocument(db, coll, id)`. -/
def sdkGetDocument (w : World) (db coll : String) (id : JsVal) : Eff JsVal := fun s =>
  (w.getDocument db coll id, { s with events := s.events ++ [.sdk (.getDocument db coll id)] })

/-- The call `await databases.listDocuments(db, coll, queries)`. -/
def sdkListDocuments (w : World) (db coll : String) (queries : List Query) : Eff JsVal := fun s =>
  (w.listDocuments db coll queries,
    { s with events := s.events ++ [.sdk (.listDocuments db coll queries)] })

/-- The call `await databases.updateDocument(db, coll, id, data)`. -/
def sdkUpdateDocument (w : World) (db coll : String) (id data : JsVal) : Eff JsVal := fun s =>
  (w.updateDocument db coll id data,
    { s with events := s.events ++ [.sdk (.updateDocument db coll id data)] })

/-- The call `await databases.deleteDocument(db, coll, id)`. -/
def sdkDeleteDocument (w : World) (db coll : String) (id : JsVal) : Eff JsVal := fun s =>
  (w.deleteDocument db coll id,
    { s with events := s.events ++ [.sdk (.deleteDocument db coll id)] })

/-- The function `userService.createUser(userData)`. -/
def userService.createUser (w : World) (userData : JsVal) : Eff JsVal := do
  emit (.service "createUser")
  tryCatchJs (do
      let name ← getProp userData "name"
      let email ← getProp userData "email"
      let skills ← getProp userData "skills"
      let bio ← getProp userData "bio"
      let avatar ← getProp userData "avatar"
      let createdAt ← nowISO w
      let updatedAt ← nowISO w
      let document ← sdkCreateDocument w w.DATABASE_ID w.USERS w.uniqueId
        (.obj [("name", name), ("email", email), ("skills", jsOr skills (.arr [])),
          ("bio", jsOr bio (.str "")), ("avatar", jsOr avatar (.str "")),
          ("createdAt", createdAt), ("updatedAt", updatedAt)])
      return document)
    (fun error => do
      consoleError "Error creating user:" error
      throwJs error)

/-- The function `userService.getUserById(userId)`. -/
def userService.getUserById (w : World) (userId : JsVal) : Eff JsVal := do
  emit (.service "getUserById")
  tryCatchJs (do
      let document ← sdkGetDocument w w.DATABASE_ID w.USERS userId
      return document)
    (fun error => do
      consoleError "Error getting user:" error
      throwJs error)

/-- The function `userService.getUserByEmail(email)`. -/
def userService.getUserByEmail (w : World) (email : JsVal) : Eff JsVal := do
  emit (.service "getUserByEmail")
  tryCatchJs (do
      let documents ← sdkListDocuments w w.DATABASE_ID w.USERS [Query.equal "email" email]
      let docs ← getProp documents "documents"
      let first ← getIndex0 docs
      return jsOr first .null)
    (fun error => do
      consoleError "Error getting user by email:" error
      throwJs error)

/-- The object literal `{ ...userData, updatedAt: v }`. -/
def spreadWithUpdatedAt (userData : Obj) (v : JsVal) : Obj := objSet userData "updatedAt" v

/-- The function `userService.updateUser(userId, userData)`. -/
def userService.updateUser (w : World) (userId : JsVal) (userData : Obj) : Eff JsVal := do
  emit (.service "updateUser")
  tryCatchJs (do
      let updatedAt ← nowISO w
      let document ← sdkUpdateDocument w w.DATABASE_ID w.USERS userId
        (.obj (spreadWithUpdatedAt userData updatedAt))
      return document)
    (fun error => do
      consoleError "Error updating user:" error
      throwJs error)

/-- The function `userService.deleteUser(userId)`. -/
def userService.deleteUser (w : World) (userId : JsVal) : Eff JsVal := do
  emit (.service "deleteUser")
  tryCatchJs (do
      let _ ← sdkDeleteDocument w w.DATABASE_ID w.USERS userId
      return .obj [("success", .bool true)])
    (fun error => do
      consoleError "Error deleting user:" error
      throwJs error)

/-- The function `userService.listUsers(queries)`. -/
def userService.listUsers (w : World) (queries : List Query) : Eff JsVal := do
  emit (.service "listUsers")
  tryCatchJs (do
      let response ← sdkListDocuments w w.DATABASE_ID w.USERS queries
      return response)
    (fun error => do
      consoleError "Error listing users:" error
      throwJs error)

/-! ## `api/controllers/appwriteUserController.js` -/

/-- Body of the `getAllUsers` handler. -/
def getAllUsersBody (w : World) (req : Req) : Eff Unit := do
  let limit := propD req.query "limit" (.num 25)
  let offset := propD req.query "offset" (.num 0)
  let search := prop req.query "search"
  let queries : List Query := []
  let queries :=
    if truthy search then
      (queries ++ [Query.search "name" search]) ++ [Query.search "email" search]
    else queries
  let limitNumber ← liftExcept (parseInt limit)
  let queries := queries ++ [Query.limit limitNumber]
  let offsetNumber ← liftExcept (parseInt offset)
  let queries := queries ++ [Query.offset offsetNumber]
  let response ← userService.listUsers w queries
  let body ← successResponse w response (.str "Users retrieved successfully")
  resJson body

/-- Body of the `getUserById` handler. -/
def getUserByIdBody (w : World) (req : Req) : Eff Unit := do
  let id := prop req.params "id"
  tryCatchJs (do
      let user ← userService.getUserById w id
      let body ← successResponse w user (.str "User retrieved successfully")
      resJson body)
    (fun error => do
      let code ← getProp error "code"
      if is404 code then
        resStatus 404
        let body ← errorResponse w (.str "User not found") (.str "USER_NOT_FOUND")
        resJson body
      else
        throwJs error)

/-- Body of the `getUserByEmail` handler. -/
def getUserByEmailBody (w : World) (req : Req) : Eff Unit := do
  let email := prop req.query "email"
  if !truthy email then
    resStatus 400
    let body ← errorResponse w (.str "Email parameter is required") (.str "VALIDATION_ERROR")
    resJson body
  else
    tryCatchJs (do
        let user ← userService.getUserByEmail w email
        if !truthy user then
          resStatus 404
          let body ← errorResponse w (.str "User not found") (.str "USER_NOT_FOUND")
          resJson body
        else
          let body ← successResponse w user (.str "User retrieved successfully")
          resJson body)
      (fun error => throwJs error)

/-- Body of the `createUser` handler. -/
def createUserBody (w : World) (req : Req) : Eff Unit := do
  let name := prop req.body "name"
  let email := prop req.body "email"
  let skills := prop req.body "skills"
  let bio := prop req.body "bio"
  let avatar := prop req.body "avatar"
  if !truthy name || !truthy email then
    resStatus 400
    let body ← errorResponse w (.str "Name and email are required") (.str "VALIDATION_ERROR")
    resJson body
  else
    let existingUser ← userService.getUserByEmail w email
    if truthy existingUser then
      resStatus 409
      let body ← errorResponse w (.str "Email already exists") (.str "EMAIL_EXISTS")
      resJson body
    else
      let newUser ← userService.createUser w
        (.obj [("name", name), ("email", email), ("skills", jsOr skills (.arr [])),
          ("bio", jsOr bio (.str "")), ("avatar", jsOr avatar (.str ""))])
      resStatus 201
      let body ← successResponse w newUser (.str "User created successfully")
      resJson body

/-- Body of the `updateUser` handler. -/
def updateUserBody (w : World) (req : Req) : Eff Unit := do
  let id := prop req.params "id"
  let updateData := req.body
  let updateData := objDelete updateData "id"
  let updateData := objDelete updateData "$id"
  let updateData := objDelete updateData "createdAt"
  tryCatchJs (do
      let updatedUser ← userService.updateUser w id updateData
      let body ← successResponse w updatedUser (.str "User updated successfully")
      resJson body)
    (fun error => do
      let code ← getProp error "code"
      if is404 code then
        resStatus 404
        let body ← errorResponse w (.str "User not found") (.str "USER_NOT_FOUND")
        resJson body
      else
        throwJs error)

/-- Body of the `deleteUser` handler. -/
def deleteUserBody (w : World) (req : Req) : Eff Unit := do
  let id := prop req.params "id"
  tryCatchJs (do
      let _ ← userService.deleteUser w id
      let body ← successResponse w .null (.str "User deleted successfully")
      resJson body)
    (fun error => do
      let code ← getProp error "code"
      if is404 code then
        resStatus 404
        let body ← errorResponse w (.str "User not found") (.str "USER_NOT_FOUND")
        resJson body
      else
        throwJs error)

/-- The handler `appwriteUserController.getAllUsers`. -/
def getAllUsers (w : World) : Req → Eff Unit := asyncHandler (asyncFn (getAllUsersBody w))

/-- The handler `appwriteUserController.getUserById`. -/
def getUserById (w : World) : Req → Eff Unit := asyncHandler (asyncFn (getUserByIdBody w))

/-- The handler `appwriteUserController.getUserByEmail`. -/
def getUserByEmail (w : World) : Req → Eff Unit := asyncHandler (asyncFn (getUserByEmailBody w))

/-- The handler `appwriteUserController.createUser`. -/
def createUser (w : World) : Req → Eff Unit := asyncHandler (asyncFn (createUserBody w))

/-- The handler `appwriteUserController.updateUser`. -/
def updateUser (w : World) : Req → Eff Unit := asyncHandler (asyncFn (updateUserBody w))

/-- The handler `appwriteUserController.deleteUser`. -/
def deleteUser (w : World) : Req → Eff Unit := asyncHandler (asyncFn (deleteUserBody w))

/-! ## Observations on responses -/

/-- Own property `k` of a value, `none` when the value is not an object or has no
such key. -/
def field (v : JsVal) (k : String) : Option JsVal :=
  match v with
  | .obj o => objGet o k
  | _ => none

/-- The nested `error.code` of a body. -/
def errorCode (body : JsVal) : Option JsVal := (field body "error").bind fun e => field e "code"

/-- The nested `error.message` of a body. -/
def errorMessage (body : JsVal) : Option JsVal :=
  (field body "error").bind fun e => field e "message"

/-- Keys of an object, in order. -/
def keysOf : JsVal → List String
  | .obj o => o.map fun p => p.1
  | _ => []

/-- The success shape: exactly `success`, `message`, `data`, `timestamp`, with
`success` true. -/
def isSuccessEnvelope (b : JsVal) : Prop :=
  keysOf b = ["success", "message", "data", "timestamp"] ∧ field b "success" = some (.bool true)

/-- The failure shape: exactly `success`, `error`, `timestamp`, with `success`
false and `error` holding exactly `message` and `code`. -/
def isFailureEnvelope (b : JsVal) : Prop :=
  keysOf b = ["success", "error", "timestamp"] ∧ field b "success" = some (.bool false) ∧
  ∃ e, field b "error" = some e ∧ keysOf e = ["message", "code"]

/-- The six operations of the user controller. -/
inductive UserOp where
  | getAllUsers
  | getUserById
  | getUserByEmail
  | createUser
  | updateUser
  | deleteUser

/-- The handler of an operation. -/
def UserOp.handler (w : World) : UserOp → Req → Eff Unit
  | .getAllUsers => Appwrite.getAllUsers w
  | .getUserById => Appwrite.getUserById w
  | .getUserByEmail => Appwrite.getUserByEmail w
  | .createUser => Appwrite.createUser w
  | .updateUser => Appwrite.updateUser w
  | .deleteUser => Appwrite.deleteUser w

/-- The patch `updateUser` sends for a request body when the clock reads `now`. -/
def updatePatch (body : Obj) (now : String) : Obj :=
  spreadWithUpdatedAt (objDelete (objDelete (objDelete body "id") "$id") "createdAt") (.str now)

/-- The record `createUser` (controller, then service) hands to the store for a
request body, given the values of the two clock reads the service makes. -/
def createRecord (body : Obj) (createdAt updatedAt : String) : JsVal :=
  .obj [("name", prop body "name"), ("email", prop body "email"),
    ("skills", jsOr (jsOr (prop body "skills") (.arr [])) (.arr [])),
    ("bio", jsOr (jsOr (prop body "bio") (.str "")) (.str "")),
    ("avatar", jsOr (jsOr (prop body "avatar") (.str "")) (.str "")),
    ("createdAt", .str createdAt), ("updatedAt", .str updatedAt)]

/-- The outcome "answered 404 `USER_NOT_FOUND`": the handler returned normally,
the status is 404, the body is a failure envelope with that code, and nothing
was handed to `next`. -/
def AnsweredNotFound (s : St) (out : Except JsVal Unit × St) : Prop :=
  out.1 = .ok () ∧ out.2.res.statusCode = 404 ∧
  (∃ b, out.2.res.body = some b ∧ isFailureEnvelope b ∧
    errorCode b = some (.str "USER_NOT_FOUND")) ∧
  out.2.nextCalls = s.nextCalls

/-- The filter list as the specification words it: the two search filters when a
search value is given, then the limit and the offset filter. -/
def specFilters (search : Option JsVal) (limit offset : JsVal) : List Query :=
  (match search with
    | some v => [Query.search "name" v, Query.search "email" v]
    | none => []) ++ [Query.limit limit, Query.offset offset]

/-- The search value of a query string as the handler reads it: present when
`req.query.search` is truthy. -/
def searchOf (query : Obj) : Option JsVal :=
  if truthy (prop query "search") then some (prop query "search") else none

/-- A computation that leaves the Express response untouched. -/
def KeepsRes {α : Type} (m : Eff α) : Prop := ∀ s, (m s).2.res = s.res

/-- The envelope invariant on a response: a written body is a success envelope
under status 200 or 201, or a failure envelope under status 400, 404 or 409. -/
def EnvelopeOK (r : Res) : Prop :=
  ∀ b, r.body = some b →
    (isSuccessEnvelope b ∧ (r.statusCode = 200 ∨ r.statusCode = 201)) ∨
    (isFailureEnvelope b ∧ (r.statusCode = 400 ∨ r.statusCode = 404 ∨ r.statusCode = 409))

/-! ## Sample worlds and requests -/

/-- An error object as the SDK throws for a missing document. -/
def notFoundError : JsVal := .obj [("message", .str "Document not found"), ("code", .num 404)]

/-- A stored user record. -/
def storedUser : JsVal :=
  .obj [("$id", .str "u1"), ("name", .str "A"), ("email", .str "a@x.com"),
    ("updatedAt", .str "2024-06-01T00:00:00.000Z")]

/-- An empty store whose clock advances by one millisecond per read. -/
def emptyWorld : World where
  clock := fun n =>
    if n = 0 then "2024-01-01T00:00:00.000Z" else "2024-01-01T00:00:00.001Z"
  DATABASE_ID := "db"
  USERS := "users"
  uniqueId := "unique()"
  createDocument := fun _ _ _ data => .ok data
  getDocument := fun _ _ _ => .error notFoundError
  listDocuments := fun _ _ _ => .ok (.obj [("total", .num 0), ("documents", .arr [])])
  updateDocument := fun _ _ _ _ => .error notFoundError
  deleteDocument := fun _ _ _ => .error notFoundError

/-- A store holding `storedUser`, with a clock standing at the first of January 2024. -/
def oneUserWorld : World where
  clock := fun _ => "2024-01-01T00:00:00.000Z"
  DATABASE_ID := "db"
  USERS := "users"
  uniqueId := "unique()"
  createDocument := fun _ _ _ data => .ok data
  getDocument := fun _ _ _ => .ok storedUser
  listDocuments := fun _ _ _ => .ok (.obj [("total", .num 1), ("documents", .arr [storedUser])])
  updateDocument := fun _ _ _ data => .ok data
  deleteDocument := fun _ _ _ => .ok (.str "")

/-- Request `POST /users` with name and email. -/
def createReq : Req := ⟨[], [], [("name", .str "A"), ("email", .str "a@x.com")]⟩

/-- Request `POST /users` with an email and no name. -/
def noNameReq : Req := ⟨[], [], [("email", .str "a@x.com"), ("bio", .str "hi")]⟩

/-- A request naming the user `u1`, with a body that tries to overwrite `id`,
`$id`, `createdAt` and `updatedAt`. -/
def updateReq : Req :=
  ⟨[("id", .str "u1")], [],
    [("id", .str "x"), ("$id", .str "y"), ("createdAt", .str "1999"), ("bio", .str "new"),
      ("updatedAt", .str "1999")]⟩

/-- Request `GET /users?search=`: the search parameter is given and empty. -/
def emptySearchReq : Req := ⟨[], [("search", .str "")], []⟩

/-- Request `GET /users?search=alice`. -/
def searchReq : Req := ⟨[], [("search", .str "alice")], []⟩

/-- Request `GET /users?limit[toString]=x`: the query parser builds an object
with its own `toString` for `limit`. -/
def toStringLimitReq : Req := ⟨[], [("limit", .obj [("toString", .str "x")])], []⟩

/-- An error object as the SDK throws when the service fails. -/
def serverError : JsVal := .obj [("message", .str "Server Error"), ("code", .num 500)]

/-- A store whose list call fails. -/
def downWorld : World where
  clock := fun _ => "2024-01-01T00:00:00.000Z"
  DATABASE_ID := "db"
  USERS := "users"
  uniqueId := "unique()"
  createDocument := fun _ _ _ _ => .error serverError
  getDocument := fun _ _ _ => .error serverError
  listDocuments := fun _ _ _ => .error serverError
  updateDocument := fun _ _ _ _ => .error serverError
  deleteDocument := fun _ _ _ => .error serverError

/-- A handler that is not an `async` function and throws synchronously. -/
def throwingHandler : Handler := fun _ => throwJs (.str "boom")

/-- An `async` handler whose body throws. -/
def rejectingHandler : Handler := asyncFn fun _ => throwJs (.str "boom")

/-! ## Theorems -/

/-! ### Stepping lemmas -/

theorem getUserByEmail_found (w : World) (email result : JsVal) (record : Obj)
    (others : List JsVal) (s : St)
    (hlookup : w.listDocuments w.DATABASE_ID w.USERS [Query.equal "email" email] = .ok result)
    (hdocs : field result "documents" = some (.arr (.obj record :: others))) :
    userService.getUserByEmail w email s =
      (.ok (.obj record), { s with events := s.events ++ [.service "getUserByEmail",
        .sdk (.listDocuments w.DATABASE_ID w.USERS [Query.equal "email" email])] }) := by
  cases result <;> simp [field] at hdocs
  simp [userService.getUserByEmail, bind, Eff.bind, pure, Eff.pure, emit, tryCatchJs,
    sdkListDocuments, hlookup, getProp, prop, hdocs, getIndex0, jsOr, truthy]

theorem getUserByEmail_absent (w : World) (email result : JsVal) (s : St)
    (hlookup : w.listDocuments w.DATABASE_ID w.USERS [Query.equal "email" email] = .ok result)
    (hdocs : field result "documents" = some (.arr [])) :
    userService.getUserByEmail w email s =
      (.ok .null, { s with events := s.events ++ [.service "getUserByEmail",
        .sdk (.listDocuments w.DATABASE_ID w.USERS [Query.equal "email" email])] }) := by
  cases result <;> simp [field] at hdocs
  simp [userService.getUserByEmail, bind, Eff.bind, pure, Eff.pure, emit, tryCatchJs,
    sdkListDocuments, hlookup, getProp, prop, hdocs, getIndex0, jsOr, truthy]

theorem createUser_service_ok (w : World) (o : Obj) (doc : JsVal) (s : St)
    (hcreate : w.createDocument w.DATABASE_ID w.USERS w.uniqueId
      (.obj [("name", prop o "name"), ("email", prop o "email"),
        ("skills", jsOr (prop o "skills") (.arr [])), ("bio", jsOr (prop o "bio") (.str "")),
        ("avatar", jsOr (prop o "avatar") (.str "")),
        ("createdAt", .str (w.clock s.ticks)), ("updatedAt", .str (w.clock (s.ticks + 1)))])
      = .ok doc) :
    userService.createUser w (.obj o) s =
      (.ok doc, { s with
        ticks := s.ticks + 2
        events := s.events ++ [.service "createUser",
          .sdk (.createDocument w.DATABASE_ID w.USERS w.uniqueId
            (.obj [("name", prop o "name"), ("email", prop o "email"),
              ("skills", jsOr (prop o "skills") (.arr [])),
              ("bio", jsOr (prop o "bio") (.str "")),
              ("avatar", jsOr (prop o "avatar") (.str "")),
              ("createdAt", .str (w.clock s.ticks)),
              ("updatedAt", .str (w.clock (s.ticks + 1)))]))] }) := by
  simp [userService.createUser, bind, Eff.bind, pure, Eff.pure, emit, tryCatchJs,
    sdkCreateDocument, getProp, nowISO, hcreate]

theorem getUserById_service_error (w : World) (id e : JsVal) (s : St)
    (h : w.getDocument w.DATABASE_ID w.USERS id = .error e) :
    userService.getUserById w id s =
      (.error e, { s with events := s.events ++ [.service "getUserById",
        .sdk (.getDocument w.DATABASE_ID w.USERS id),
        .consoleError "Error getting user:" e] }) := by
  simp [userService.getUserById, bind, Eff.bind, pure, Eff.pure, emit, tryCatchJs,
    sdkGetDocument, h, consoleError, throwJs]

theorem updateUser_service_error (w : World) (id e : JsVal) (data : Obj) (s : St)
    (h : w.updateDocument w.DATABASE_ID w.USERS id
      (.obj (spreadWithUpdatedAt data (.str (w.clock s.ticks)))) = .error e) :
    userService.updateUser w id data s =
      (.error e, { s with
        ticks := s.ticks + 1
        events := s.events ++ [.service "updateUser",
          .sdk (.updateDocument w.DATABASE_ID w.USERS id
            (.obj (spreadWithUpdatedAt data (.str (w.clock s.ticks))))),
          .consoleError "Error updating user:" e] }) := by
  simp [userService.updateUser, bind, Eff.bind, pure, Eff.pure, emit, tryCatchJs,
    sdkUpdateDocument, h, consoleError, throwJs, nowISO]

theorem deleteUser_service_error (w : World) (id e : JsVal) (s : St)
    (h : w.deleteDocument w.DATABASE_ID w.USERS id = .error e) :
    userService.deleteUser w id s =
      (.error e, { s with events := s.events ++ [.service "deleteUser",
        .sdk (.deleteDocument w.DATABASE_ID w.USERS id),
        .consoleError "Error deleting user:" e] }) := by
  simp [userService.deleteUser, bind, Eff.bind, pure, Eff.pure, emit, tryCatchJs,
    sdkDeleteDocument, h, consoleError, throwJs]

theorem getProp_code_404 (e : JsVal) (s : St) (hcode : field e "code" = some (.num 404)) :
    getProp e "code" s = (.ok (.num 404), s) := by
  cases e <;> simp [field] at hcode
  simp [getProp, Eff.pure, prop, hcode]

/-! ### Objects -/

theorem objGet_objDelete (o : Obj) (k k1 : String) :
    objGet (objDelete o k) k1 = if k1 = k then none else objGet o k1 := by
  induction o with
  | nil => simp [objDelete, objGet]
  | cons p ps ih =>
    obtain ⟨a, v⟩ := p
    simp only [objDelete, objGet] at ih ⊢
    by_cases hak : a = k
    · subst hak
      by_cases hk : k1 = a
      · subst hk; simpa using ih
      · have : (k1 == a) = false := by simpa using hk
        simp [List.filter, List.lookup, this, hk] at ih ⊢
        exact ih
    · have hne : (a != k) = true := by simpa using hak
      by_cases hk : k1 = k
      · subst hk
        have : (k1 == a) = false := by simpa using fun h => hak h.symm
        simp [List.filter, hne, List.lookup, this] at ih ⊢
        exact ih
      · by_cases hka : k1 = a
        · subst hka
          simp [List.filter, hne, List.lookup, hk]
        · have : (k1 == a) = false := by simpa using hka
          simp [List.filter, hne, List.lookup, this, hk] at ih ⊢
          exact ih

theorem lookup_cons_same (ps : Obj) (a : String) (x : JsVal) :
    List.lookup a ((a, x) :: ps) = some x := by
  simp [List.lookup]

theorem lookup_cons_other (ps : Obj) (a k1 : String) (x : JsVal) (h : k1 ≠ a) :
    List.lookup k1 ((a, x) :: ps) = List.lookup k1 ps := by
  have : (k1 == a) = false := by simpa using h
  simp [List.lookup, this]

theorem lookup_map_set (o : Obj) (k k1 : String) (v : JsVal) :
    List.lookup k1 (o.map fun p => if p.1 == k then (k, v) else p) =
      if k1 = k then (List.lookup k o).map (fun _ => v) else List.lookup k1 o := by
  induction o with
  | nil => simp
  | cons p ps ih =>
    obtain ⟨a, x⟩ := p
    rw [List.map_cons]
    by_cases hak : a = k
    · have h1 : (if ((a, x).1 == k) = true then (k, v) else (a, x)) = (k, v) := by simp [hak]
      rw [h1]
      subst hak
      by_cases hk : k1 = a
      · subst hk
        rw [lookup_cons_same, lookup_cons_same]; simp
      · rw [lookup_cons_other _ _ _ _ hk, lookup_cons_other _ _ _ _ hk, ih]
        simp [hk]
    · have h1 : (if ((a, x).1 == k) = true then (k, v) else (a, x)) = (a, x) := by simp [hak]
      rw [h1]
      by_cases hk : k1 = k
      · subst hk
        have hne : k1 ≠ a := fun h => hak h.symm
        rw [lookup_cons_other _ _ _ _ hne, lookup_cons_other _ _ _ _ hne, ih]
      · by_cases hka : k1 = a
        · subst hka
          rw [lookup_cons_same, lookup_cons_same]; simp [hk]
        · rw [lookup_cons_other _ _ _ _ hka, lookup_cons_other _ _ _ _ hka, ih]
          simp [hk]

theorem lookup_append_single (o : Obj) (k k1 : String) (v : JsVal) :
    List.lookup k1 (o ++ [(k, v)]) =
      match List.lookup k1 o with
      | some x => some x
      | none => if k1 = k then some v else none := by
  induction o with
  | nil =>
    by_cases hk : k1 = k
    · subst hk; simp [List.lookup]
    · have : (k1 == k) = false := by simpa using hk
      simp [List.lookup, this, hk]
  | cons p ps ih =>
    obtain ⟨a, x⟩ := p
    by_cases hka : k1 = a
    · subst hka; simp [List.lookup]
    · have : (k1 == a) = false := by simpa using hka
      simp [List.lookup, this] at ih ⊢
      exact ih

theorem objGet_objSet (o : Obj) (k k1 : String) (v : JsVal) :
    objGet (objSet o k v) k1 = if k1 = k then some v else objGet o k1 := by
  unfold objSet objGet
  cases h : List.lookup k o with
  | none =>
    simp only [Option.isSome_none, Bool.false_eq_true, ↓reduceIte]
    rw [lookup_append_single]
    by_cases hk : k1 = k
    · subst hk; simp [h]
    · simp only [hk, ↓reduceIte]
      cases List.lookup k1 o <;> rfl
  | some x =>
    simp only [Option.isSome_some, ↓reduceIte]
    rw [lookup_map_set]
    by_cases hk : k1 = k
    · subst hk; simp [h]
    · simp [hk]

theorem mem_keys_iff (o : Obj) (k : String) :
    k ∈ keysOf (.obj o) ↔ (objGet o k).isSome = true := by
  induction o with
  | nil => simp [keysOf, objGet]
  | cons p ps ih =>
    obtain ⟨a, x⟩ := p
    simp only [keysOf, objGet] at ih ⊢
    by_cases hka : k = a
    · subst hka; simp [List.lookup]
    · have : (k == a) = false := by simpa using hka
      simp [List.lookup, this, hka] at ih ⊢

theorem listUsers_service_ok (w : World) (queries : List Query) (result : JsVal) (s : St)
    (h : w.listDocuments w.DATABASE_ID w.USERS queries = .ok result) :
    userService.listUsers w queries s =
      (.ok result, { s with events := s.events ++ [.service "listUsers",
        .sdk (.listDocuments w.DATABASE_ID w.USERS queries)] }) := by
  simp [userService.listUsers, bind, Eff.bind, pure, Eff.pure, emit, tryCatchJs,
    sdkListDocuments, h]

theorem listUsers_service_error (w : World) (queries : List Query) (e : JsVal) (s : St)
    (h : w.listDocuments w.DATABASE_ID w.USERS queries = .error e) :
    userService.listUsers w queries s =
      (.error e, { s with events := s.events ++ [.service "listUsers",
        .sdk (.listDocuments w.DATABASE_ID w.USERS queries),
        .consoleError "Error listing users:" e] }) := by
  simp [userService.listUsers, bind, Eff.bind, pure, Eff.pure, emit, tryCatchJs,
    sdkListDocuments, h, consoleError, throwJs]

theorem parseInt_default_limit : parseInt (.num 25) = .ok (.num 25) := by
  simp only [parseInt, jsToString]; rfl

theorem parseInt_default_offset : parseInt (.num 0) = .ok (.num 0) := by
  simp only [parseInt, jsToString]; rfl

/-- A decimal string beyond `2 ^ 53` is read as the nearest double. -/
theorem parseInt_rounds_to_double :
    parseInt (.str "9007199254740993") = .ok (.num 9007199254740992) := by
  simp only [parseInt, jsToString]; rfl

/-- An object with its own `toString` cannot be converted: `parseInt` throws. -/
theorem parseInt_own_toString_throws :
    parseInt (.obj [("toString", .str "x")]) = .error typeError := by
  simp only [parseInt, jsToString]; rfl

/-- The filter list `getAllUsers` builds is the specified one. -/
theorem getAllUsers_queries (req : Req) (lim off : JsVal) :
    (if truthy (prop req.query "search") = true then
        ([] ++ [Query.search "name" (prop req.query "search")]) ++
          [Query.search "email" (prop req.query "search")]
      else ([] : List Query)) ++ [Query.limit lim] ++ [Query.offset off] =
      specFilters (searchOf req.query) lim off := by
  unfold specFilters searchOf
  by_cases h : truthy (prop req.query "search") = true <;> simp [h]

/-- The run of `getAllUsers` when the store answers the list call. -/
theorem getAllUsers_run (w : World) (req : Req) (s : St) (lim off result : JsVal)
    (hlim : parseInt (propD req.query "limit" (.num 25)) = .ok lim)
    (hoff : parseInt (propD req.query "offset" (.num 0)) = .ok off)
    (hlist : w.listDocuments w.DATABASE_ID w.USERS
      (specFilters (searchOf req.query) lim off) = .ok result) :
    getAllUsers w req s =
      (.ok (), { s with
        ticks := s.ticks + 1
        events := s.events ++ [.service "listUsers",
          .sdk (.listDocuments w.DATABASE_ID w.USERS
            (specFilters (searchOf req.query) lim off))]
        res := { s.res with body := some (.obj [("success", .bool true),
          ("message", .str "Users retrieved successfully"), ("data", result),
          ("timestamp", .str (w.clock s.ticks))]) } }) := by
  have hsvc := listUsers_service_ok w _ result s hlist
  simp only [getAllUsers, asyncHandler, asyncFn, getAllUsersBody, bind, Eff.bind, liftExcept,
    hlim, hoff, getAllUsers_queries, hsvc, successResponse, nowISO, resJson, pure, Eff.pure,
    promiseResolve]

/-- The run of `getAllUsers` when the store rejects the list call. -/
theorem getAllUsers_run_error (w : World) (req : Req) (s : St) (lim off e : JsVal)
    (hlim : parseInt (propD req.query "limit" (.num 25)) = .ok lim)
    (hoff : parseInt (propD req.query "offset" (.num 0)) = .ok off)
    (hlist : w.listDocuments w.DATABASE_ID w.USERS
      (specFilters (searchOf req.query) lim off) = .error e) :
    getAllUsers w req s =
      (.ok (), { s with
        events := s.events ++ [.service "listUsers",
          .sdk (.listDocuments w.DATABASE_ID w.USERS
            (specFilters (searchOf req.query) lim off)),
          .consoleError "Error listing users:" e]
        nextCalls := s.nextCalls ++ [e] }) := by
  have hsvc := listUsers_service_error w _ e s hlist
  simp only [getAllUsers, asyncHandler, asyncFn, getAllUsersBody, bind, Eff.bind, liftExcept,
    hlim, hoff, getAllUsers_queries, hsvc, promiseResolve, callNext]

/-- When the conversion of `limit` throws, `getAllUsers` makes no store call and
hands the error to `next`. -/
theorem getAllUsers_run_limit_throws (w : World) (req : Req) (s : St) (e : JsVal)
    (hlim : parseInt (propD req.query "limit" (.num 25)) = .error e) :
    getAllUsers w req s = (.ok (), { s with nextCalls := s.nextCalls ++ [e] }) := by
  simp only [getAllUsers, asyncHandler, asyncFn, getAllUsersBody, bind, Eff.bind, liftExcept,
    hlim, promiseResolve, callNext]

/-! ### Computations that leave the response untouched -/

theorem keepsRes_pure {α : Type} (a : α) : KeepsRes (pure a : Eff α) := fun _ => rfl

theorem keepsRes_bind {α β : Type} (m : Eff α) (f : α → Eff β) (hm : KeepsRes m)
    (hf : ∀ a, KeepsRes (f a)) : KeepsRes (m >>= f) := by
  intro s
  have h1 := hm s
  show (Eff.bind m f s).2.res = s.res
  unfold Eff.bind
  rcases hms : m s with ⟨r, s1⟩
  rw [hms] at h1
  cases r with
  | ok a => exact (hf a s1).trans h1
  | error e => simpa using h1

theorem keepsRes_tryCatch {α : Type} (m : Eff α) (h : JsVal → Eff α) (hm : KeepsRes m)
    (hh : ∀ e, KeepsRes (h e)) : KeepsRes (tryCatchJs m h) := by
  intro s
  have h1 := hm s
  unfold tryCatchJs
  rcases hms : m s with ⟨r, s1⟩
  rw [hms] at h1
  cases r with
  | ok a => simpa using h1
  | error e => exact (hh e s1).trans h1

theorem keepsRes_throw {α : Type} (e : JsVal) : KeepsRes (throwJs e : Eff α) := fun _ => rfl

theorem keepsRes_liftExcept {α : Type} (r : Except JsVal α) : KeepsRes (liftExcept r) :=
  fun _ => rfl

theorem keepsRes_emit (e : Event) : KeepsRes (emit e) := fun _ => rfl

theorem keepsRes_consoleError (msg : String) (e : JsVal) : KeepsRes (consoleError msg e) :=
  fun _ => rfl

theorem keepsRes_nowISO (w : World) : KeepsRes (nowISO w) := fun _ => rfl

theorem keepsRes_getProp (v : JsVal) (k : String) : KeepsRes (getProp v k) := by
  intro s; cases v <;> rfl

theorem keepsRes_getIndex0 (v : JsVal) : KeepsRes (getIndex0 v) := by
  intro s; cases v <;> rfl

theorem keepsRes_getUserById (w : World) (id : JsVal) :
    KeepsRes (userService.getUserById w id) := by
  unfold userService.getUserById
  refine keepsRes_bind _ _ (keepsRes_emit _) fun _ => keepsRes_tryCatch _ _ ?_ fun e => ?_
  · exact keepsRes_bind _ _ (fun _ => rfl) fun _ => keepsRes_pure _
  · exact keepsRes_bind _ _ (keepsRes_consoleError _ _) fun _ => keepsRes_throw _

theorem keepsRes_deleteUser (w : World) (id : JsVal) :
    KeepsRes (userService.deleteUser w id) := by
  unfold userService.deleteUser
  refine keepsRes_bind _ _ (keepsRes_emit _) fun _ => keepsRes_tryCatch _ _ ?_ fun e => ?_
  · exact keepsRes_bind _ _ (fun _ => rfl) fun _ => keepsRes_pure _
  · exact keepsRes_bind _ _ (keepsRes_consoleError _ _) fun _ => keepsRes_throw _

theorem keepsRes_listUsers (w : World) (queries : List Query) :
    KeepsRes (userService.listUsers w queries) := by
  unfold userService.listUsers
  refine keepsRes_bind _ _ (keepsRes_emit _) fun _ => keepsRes_tryCatch _ _ ?_ fun e => ?_
  · exact keepsRes_bind _ _ (fun _ => rfl) fun _ => keepsRes_pure _
  · exact keepsRes_bind _ _ (keepsRes_consoleError _ _) fun _ => keepsRes_throw _

theorem keepsRes_updateUser (w : World) (id : JsVal) (data : Obj) :
    KeepsRes (userService.updateUser w id data) := by
  unfold userService.updateUser
  refine keepsRes_bind _ _ (keepsRes_emit _) fun _ => keepsRes_tryCatch _ _ ?_ fun e => ?_
  · exact keepsRes_bind _ _ (keepsRes_nowISO w) fun _ =>
      keepsRes_bind _ _ (fun _ => rfl) fun _ => keepsRes_pure _
  · exact keepsRes_bind _ _ (keepsRes_consoleError _ _) fun _ => keepsRes_throw _

theorem keepsRes_getUserByEmail (w : World) (email : JsVal) :
    KeepsRes (userService.getUserByEmail w email) := by
  unfold userService.getUserByEmail
  refine keepsRes_bind _ _ (keepsRes_emit _) fun _ => keepsRes_tryCatch _ _ ?_ fun e => ?_
  · exact keepsRes_bind _ _ (fun _ => rfl) fun _ =>
      keepsRes_bind _ _ (keepsRes_getProp _ _) fun _ =>
        keepsRes_bind _ _ (keepsRes_getIndex0 _) fun _ => keepsRes_pure _
  · exact keepsRes_bind _ _ (keepsRes_consoleError _ _) fun _ => keepsRes_throw _

theorem keepsRes_createUser (w : World) (userData : JsVal) :
    KeepsRes (userService.createUser w userData) := by
  unfold userService.createUser
  refine keepsRes_bind _ _ (keepsRes_emit _) fun _ => keepsRes_tryCatch _ _ ?_ fun e => ?_
  · exact keepsRes_bind _ _ (keepsRes_getProp _ _) fun _ =>
      keepsRes_bind _ _ (keepsRes_getProp _ _) fun _ =>
      keepsRes_bind _ _ (keepsRes_getProp _ _) fun _ =>
      keepsRes_bind _ _ (keepsRes_getProp _ _) fun _ =>
      keepsRes_bind _ _ (keepsRes_getProp _ _) fun _ =>
      keepsRes_bind _ _ (keepsRes_nowISO w) fun _ =>
      keepsRes_bind _ _ (keepsRes_nowISO w) fun _ =>
      keepsRes_bind _ _ (fun _ => rfl) fun _ => keepsRes_pure _
  · exact keepsRes_bind _ _ (keepsRes_consoleError _ _) fun _ => keepsRes_throw _

/-- The wrapper `asyncHandler(async ...)` leaves the response as the body left it. -/
theorem asyncHandler_res (body : Req → Eff Unit) (req : Req) (s : St) :
    (asyncHandler (asyncFn body) req s).2.res = (body req s).2.res := by
  rcases h : body req s with ⟨r, s1⟩
  cases r <;> simp [asyncHandler, asyncFn, bind, Eff.bind, h, promiseResolve, pure, Eff.pure,
    callNext]

theorem res_of_keepsRes {α : Type} {m : Eff α} (hm : KeepsRes m) {s s1 : St}
    {r : Except JsVal α} (h : m s = (r, s1)) : s1.res = s.res := by
  have := hm s
  rw [h] at this
  exact this

/-! ### The envelope invariant, handler by handler -/

theorem envelopeOK_unsent (n : Nat) : EnvelopeOK ⟨n, none⟩ := by
  intro b hb; cases hb

theorem envelopeOK_success (n : Nat) (hn : n = 200 ∨ n = 201) (message data ts : JsVal) :
    EnvelopeOK ⟨n, some (.obj [("success", .bool true), ("message", message), ("data", data),
      ("timestamp", ts)])⟩ := by
  intro b hb
  cases hb
  exact Or.inl ⟨⟨rfl, rfl⟩, hn⟩

theorem envelopeOK_failure (n : Nat) (hn : n = 400 ∨ n = 404 ∨ n = 409)
    (message code ts : JsVal) :
    EnvelopeOK ⟨n, some (.obj [("success", .bool false),
      ("error", .obj [("message", message), ("code", code)]), ("timestamp", ts)])⟩ := by
  intro b hb
  cases hb
  exact Or.inr ⟨⟨rfl, rfl, _, rfl, rfl⟩, hn⟩

theorem envelope_getAllUsers (w : World) (req : Req) (s : St) (hs : s.res = ⟨200, none⟩) :
    EnvelopeOK (getAllUsersBody w req s).2.res := by
  cases hlim : parseInt (propD req.query "limit" (.num 25)) with
  | error e =>
    simp [getAllUsersBody, bind, Eff.bind, liftExcept, hlim, hs]
    exact envelopeOK_unsent _
  | ok lim =>
    cases hoff : parseInt (propD req.query "offset" (.num 0)) with
    | error e =>
      simp [getAllUsersBody, bind, Eff.bind, liftExcept, hlim, hoff, hs]
      exact envelopeOK_unsent _
    | ok off =>
      rcases h : userService.listUsers w (specFilters (searchOf req.query) lim off) s
        with ⟨r, s1⟩
      have hres := res_of_keepsRes (keepsRes_listUsers w _) h
      rw [hs] at hres
      cases r with
      | ok response =>
        simp only [getAllUsersBody, bind, Eff.bind, liftExcept, hlim, hoff,
          getAllUsers_queries, h, successResponse, nowISO, resJson, pure, Eff.pure, hres]
        exact envelopeOK_success 200 (Or.inl rfl) _ _ _
      | error e =>
        simp only [getAllUsersBody, bind, Eff.bind, liftExcept, hlim, hoff,
          getAllUsers_queries, h, hres]
        exact envelopeOK_unsent _

theorem envelope_getUserById (w : World) (req : Req) (s : St) (hs : s.res = ⟨200, none⟩) :
    EnvelopeOK (getUserByIdBody w req s).2.res := by
  have hu : is404 JsVal.undefined = false := rfl
  rcases h : userService.getUserById w (prop req.params "id") s with ⟨r, s1⟩
  have hres := res_of_keepsRes (keepsRes_getUserById w _) h
  rw [hs] at hres
  cases r with
  | ok user =>
    simp [getUserByIdBody, tryCatchJs, bind, Eff.bind, h, successResponse, nowISO, resJson,
      pure, Eff.pure, hres]
    exact envelopeOK_success 200 (Or.inl rfl) _ _ _
  | error e =>
    cases e with
    | obj o =>
      by_cases h4 : is404 (prop o "code") = true
      · simp [getUserByIdBody, tryCatchJs, bind, Eff.bind, h, errorResponse, nowISO, resJson,
          resStatus, pure, Eff.pure, hres, getProp, h4]
        exact envelopeOK_failure 404 (Or.inr (Or.inl rfl)) _ _ _
      · simp [getUserByIdBody, tryCatchJs, bind, Eff.bind, h, errorResponse, nowISO, resJson,
          resStatus, pure, Eff.pure, hres, getProp, h4, throwJs]
        exact envelopeOK_unsent _
    | _ =>
      simp [getUserByIdBody, tryCatchJs, bind, Eff.bind, h, errorResponse, nowISO, resJson,
        resStatus, pure, Eff.pure, hres, getProp, hu, throwJs]
      exact envelopeOK_unsent _

theorem envelope_deleteUser (w : World) (req : Req) (s : St) (hs : s.res = ⟨200, none⟩) :
    EnvelopeOK (deleteUserBody w req s).2.res := by
  have hu : is404 JsVal.undefined = false := rfl
  rcases h : userService.deleteUser w (prop req.params "id") s with ⟨r, s1⟩
  have hres := res_of_keepsRes (keepsRes_deleteUser w _) h
  rw [hs] at hres
  cases r with
  | ok user =>
    simp [deleteUserBody, tryCatchJs, bind, Eff.bind, h, successResponse, nowISO, resJson,
      pure, Eff.pure, hres]
    exact envelopeOK_success 200 (Or.inl rfl) _ _ _
  | error e =>
    cases e with
    | obj o =>
      by_cases h4 : is404 (prop o "code") = true
      · simp [deleteUserBody, tryCatchJs, bind, Eff.bind, h, errorResponse, nowISO, resJson,
          resStatus, pure, Eff.pure, hres, getProp, h4]
        exact envelopeOK_failure 404 (Or.inr (Or.inl rfl)) _ _ _
      · simp [deleteUserBody, tryCatchJs, bind, Eff.bind, h, errorResponse, nowISO, resJson,
          resStatus, pure, Eff.pure, hres, getProp, h4, throwJs]
        exact envelopeOK_unsent _
    | _ =>
      simp [deleteUserBody, tryCatchJs, bind, Eff.bind, h, errorResponse, nowISO, resJson,
        resStatus, pure, Eff.pure, hres, getProp, hu, throwJs]
      exact envelopeOK_unsent _

theorem envelope_updateUser (w : World) (req : Req) (s : St) (hs : s.res = ⟨200, none⟩) :
    EnvelopeOK (updateUserBody w req s).2.res := by
  have hu : is404 JsVal.undefined = false := rfl
  rcases h : userService.updateUser w (prop req.params "id")
    (objDelete (objDelete (objDelete req.body "id") "$id") "createdAt") s with ⟨r, s1⟩
  have hres := res_of_keepsRes (keepsRes_updateUser w _ _) h
  rw [hs] at hres
  cases r with
  | ok user =>
    simp [updateUserBody, tryCatchJs, bind, Eff.bind, h, successResponse, nowISO, resJson,
      pure, Eff.pure, hres]
    exact envelopeOK_success 200 (Or.inl rfl) _ _ _
  | error e =>
    cases e with
    | obj o =>
      by_cases h4 : is404 (prop o "code") = true
      · simp [updateUserBody, tryCatchJs, bind, Eff.bind, h, errorResponse, nowISO, resJson,
          resStatus, pure, Eff.pure, hres, getProp, h4]
        exact envelopeOK_failure 404 (Or.inr (Or.inl rfl)) _ _ _
      · simp [updateUserBody, tryCatchJs, bind, Eff.bind, h, errorResponse, nowISO, resJson,
          resStatus, pure, Eff.pure, hres, getProp, h4, throwJs]
        exact envelopeOK_unsent _
    | _ =>
      simp [updateUserBody, tryCatchJs, bind, Eff.bind, h, errorResponse, nowISO, resJson,
        resStatus, pure, Eff.pure, hres, getProp, hu, throwJs]
      exact envelopeOK_unsent _

theorem envelope_getUserByEmail (w : World) (req : Req) (s : St) (hs : s.res = ⟨200, none⟩) :
    EnvelopeOK (getUserByEmailBody w req s).2.res := by
  by_cases hemail : truthy (prop req.query "email") = true
  · rcases h : userService.getUserByEmail w (prop req.query "email") s with ⟨r, s1⟩
    have hres := res_of_keepsRes (keepsRes_getUserByEmail w _) h
    rw [hs] at hres
    cases r with
    | ok user =>
      by_cases huser : truthy user = true
      · simp [getUserByEmailBody, hemail, tryCatchJs, bind, Eff.bind, h, successResponse, nowISO,
          resJson, pure, Eff.pure, hres, huser]
        exact envelopeOK_success 200 (Or.inl rfl) _ _ _
      · simp [getUserByEmailBody, hemail, tryCatchJs, bind, Eff.bind, h, errorResponse, nowISO,
          resJson, resStatus, pure, Eff.pure, hres, huser]
        exact envelopeOK_failure 404 (Or.inr (Or.inl rfl)) _ _ _
    | error e =>
      simp [getUserByEmailBody, hemail, tryCatchJs, bind, Eff.bind, h, throwJs, hres]
      exact envelopeOK_unsent _
  · simp [getUserByEmailBody, hemail, bind, Eff.bind, errorResponse, nowISO, resJson, resStatus,
      pure, Eff.pure, hs]
    exact envelopeOK_failure 400 (Or.inl rfl) _ _ _

theorem envelope_createUser (w : World) (req : Req) (s : St) (hs : s.res = ⟨200, none⟩) :
    EnvelopeOK (createUserBody w req s).2.res := by
  by_cases hname : truthy (prop req.body "name") = true
  · by_cases hemail : truthy (prop req.body "email") = true
    · rcases h : userService.getUserByEmail w (prop req.body "email") s with ⟨r, s1⟩
      have hres := res_of_keepsRes (keepsRes_getUserByEmail w _) h
      rw [hs] at hres
      cases r with
      | ok existing =>
        by_cases hex : truthy existing = true
        · simp [createUserBody, hname, hemail, bind, Eff.bind, h, errorResponse, nowISO, resJson,
            resStatus, pure, Eff.pure, hres, hex]
          exact envelopeOK_failure 409 (Or.inr (Or.inr rfl)) _ _ _
        · rcases h2 : userService.createUser w
            (.obj [("name", prop req.body "name"), ("email", prop req.body "email"),
              ("skills", jsOr (prop req.body "skills") (.arr [])),
              ("bio", jsOr (prop req.body "bio") (.str "")),
              ("avatar", jsOr (prop req.body "avatar") (.str ""))]) s1 with ⟨r2, s2⟩
          have hres2 := res_of_keepsRes (keepsRes_createUser w _) h2
          rw [hres] at hres2
          cases r2 with
          | ok doc =>
            simp [createUserBody, hname, hemail, bind, Eff.bind, h, h2, successResponse, nowISO,
              resJson, resStatus, pure, Eff.pure, hres2, hex]
            exact envelopeOK_success 201 (Or.inr rfl) _ _ _
          | error e =>
            simp [createUserBody, hname, hemail, bind, Eff.bind, h, h2, hres2, hex]
            exact envelopeOK_unsent _
      | error e =>
        simp [createUserBody, hname, hemail, bind, Eff.bind, h, hres]
        exact envelopeOK_unsent _
    · simp [createUserBody, hname, hemail, bind, Eff.bind, errorResponse, nowISO, resJson,
        resStatus, pure, Eff.pure, hs]
      exact envelopeOK_failure 400 (Or.inl rfl) _ _ _
  · simp [createUserBody, hname, bind, Eff.bind, errorResponse, nowISO, resJson,
      resStatus, pure, Eff.pure, hs]
    exact envelopeOK_failure 400 (Or.inl rfl) _ _ _

/-! ### The claims -/

/-- C1. For every data value, message and code: `successResponse(data, message)`
returns an object whose `success` is `true`, whose `data` is the input data and
whose `message` is the given message (`'Success'` when omitted, i.e. `undefined`);
`errorResponse(message, code)` returns an object whose `success` is `false` and
whose nested `error.code` and `error.message` are the given code and message
(`'ERROR'` and `'An error occurred'` when omitted). -/
theorem envelope_contract (w : World) (data message code : JsVal) (s : St) :
    (∃ body, (successResponse w data message s).1 = .ok body ∧
      field body "success" = some (.bool true) ∧
      field body "data" = some data ∧
      (message ≠ .undefined → field body "message" = some message) ∧
      (message = .undefined → field body "message" = some (.str "Success"))) ∧
    (∃ body, (errorResponse w message code s).1 = .ok body ∧
      field body "success" = some (.bool false) ∧
      (code ≠ .undefined → errorCode body = some code) ∧
      (code = .undefined → errorCode body = some (.str "ERROR")) ∧
      (message ≠ .undefined → errorMessage body = some message) ∧
      (message = .undefined → errorMessage body = some (.str "An error occurred"))) := by
  constructor
  · refine ⟨_, rfl, ?_, ?_, ?_, ?_⟩
    · rfl
    · rfl
    · intro h; cases message <;> first | rfl | exact absurd rfl h
    · intro h; subst h; rfl
  · refine ⟨_, rfl, ?_, ?_, ?_, ?_, ?_⟩
    · rfl
    · intro h; cases code <;> first | rfl | exact absurd rfl h
    · intro h; subst h; rfl
    · intro h; cases message <;> first | rfl | exact absurd rfl h
    · intro h; subst h; rfl

/-- C2. For every request body whose `name` or `email` is missing (read by the
handler as a falsy value: absent, `null`, the empty string, ...), whatever its
other fields, `createUser` responds with status 400 and a failure envelope whose
`error.code` is `'VALIDATION_ERROR'`, and it makes no call to the user service:
no event is recorded (neither `getUserByEmail` nor `createUser`, and no SDK call),
and nothing is handed to `next`. -/
theorem createUser_missing_name_or_email (w : World) (req : Req) (s : St)
    (h : truthy (prop req.body "name") = false ∨ truthy (prop req.body "email") = false) :
    (createUser w req s).1 = .ok () ∧
    (createUser w req s).2.res.statusCode = 400 ∧
    (∃ b, (createUser w req s).2.res.body = some b ∧ isFailureEnvelope b ∧
      errorCode b = some (.str "VALIDATION_ERROR")) ∧
    (createUser w req s).2.events = s.events ∧
    (createUser w req s).2.nextCalls = s.nextCalls := by
  have key : createUser w req s =
      (.ok (), { s with
        ticks := s.ticks + 1
        res := ⟨400, some (.obj [("success", .bool false),
          ("error", .obj [("message", .str "Name and email are required"),
            ("code", .str "VALIDATION_ERROR")]),
          ("timestamp", .str (w.clock s.ticks))])⟩ }) := by
    rcases h with h | h <;>
    simp [createUser, asyncHandler, asyncFn, createUserBody, h, bind, Eff.bind, resStatus,
      errorResponse, nowISO, resJson, pure, Eff.pure, promiseResolve]
  rw [key]
  refine ⟨rfl, rfl, ⟨_, rfl, ?_, rfl⟩, rfl, rfl⟩
  exact ⟨rfl, rfl, _, rfl, rfl⟩

/-- Witness for C2: a body with an email and a biography but no name. -/
theorem createUser_missing_witness :
    (createUser emptyWorld noNameReq St.init).2.res.statusCode = 400 ∧
    (createUser emptyWorld noNameReq St.init).2.events = [] :=
  have h := createUser_missing_name_or_email emptyWorld noNameReq St.init (Or.inl rfl)
  ⟨h.2.1, h.2.2.2.1⟩

/-- C3. For every request body with a name and an email (both read as truthy by
the handler), if the store's lookup by that email returns a list whose first
document is an existing record, `createUser` responds with status 409 and a
failure envelope whose `error.code` is `'EMAIL_EXISTS'`; the only events of the
run are the entry into `userService.getUserByEmail` and its `listDocuments` call,
so `userService.createUser` is not called and no document is created. -/
theorem createUser_email_exists (w : World) (req : Req) (s : St) (result : JsVal)
    (record : Obj) (others : List JsVal)
    (hname : truthy (prop req.body "name") = true)
    (hemail : truthy (prop req.body "email") = true)
    (hlookup : w.listDocuments w.DATABASE_ID w.USERS
      [Query.equal "email" (prop req.body "email")] = .ok result)
    (hdocs : field result "documents" = some (.arr (.obj record :: others))) :
    (createUser w req s).1 = .ok () ∧
    (createUser w req s).2.res.statusCode = 409 ∧
    (∃ b, (createUser w req s).2.res.body = some b ∧ isFailureEnvelope b ∧
      errorCode b = some (.str "EMAIL_EXISTS")) ∧
    (createUser w req s).2.events = s.events ++
      [.service "getUserByEmail",
       .sdk (.listDocuments w.DATABASE_ID w.USERS [Query.equal "email" (prop req.body "email")])] ∧
    (createUser w req s).2.nextCalls = s.nextCalls := by
  have key : createUser w req s =
      (.ok (), { s with
        ticks := s.ticks + 1
        events := s.events ++ [.service "getUserByEmail",
          .sdk (.listDocuments w.DATABASE_ID w.USERS
            [Query.equal "email" (prop req.body "email")])]
        res := ⟨409, some (.obj [("success", .bool false),
          ("error", .obj [("message", .str "Email already exists"),
            ("code", .str "EMAIL_EXISTS")]),
          ("timestamp", .str (w.clock s.ticks))])⟩ }) := by
    simp [createUser, asyncHandler, asyncFn, createUserBody, hname, hemail, bind, Eff.bind,
      resStatus, errorResponse, nowISO, resJson, pure, Eff.pure, promiseResolve,
      getUserByEmail_found w _ result record others _ hlookup hdocs,
      show truthy (JsVal.obj record) = true from rfl]
  rw [key]
  refine ⟨rfl, rfl, ⟨_, rfl, ?_, rfl⟩, rfl, rfl⟩
  exact ⟨rfl, rfl, _, rfl, rfl⟩

/-- Witness for C3: the store already holds a user with the posted email. -/
theorem createUser_email_exists_witness :
    (createUser oneUserWorld createReq St.init).2.res.statusCode = 409 ∧
    (createUser oneUserWorld createReq St.init).2.events =
      [.service "getUserByEmail",
       .sdk (.listDocuments "db" "users" [Query.equal "email" (.str "a@x.com")])] :=
  have h := createUser_email_exists oneUserWorld createReq St.init
    (.obj [("total", .num 1), ("documents", .arr [storedUser])])
    [("$id", .str "u1"), ("name", .str "A"), ("email", .str "a@x.com"),
      ("updatedAt", .str "2024-06-01T00:00:00.000Z")] [] rfl rfl rfl rfl
  ⟨h.2.1, h.2.2.2.1⟩

/-- C4 as stated fails: with a clock that advances by a millisecond between two
reads, a fresh email is answered with status 201 but the record handed to the
store has `createdAt` different from `updatedAt`. -/
theorem createUser_timestamps_differ :
    ∃ data c u,
      (createUser emptyWorld createReq St.init).2.res.statusCode = 201 ∧
      (createUser emptyWorld createReq St.init).2.events =
        [.service "getUserByEmail",
         .sdk (.listDocuments "db" "users" [Query.equal "email" (.str "a@x.com")]),
         .service "createUser",
         .sdk (.createDocument "db" "users" "unique()" data)] ∧
      field data "createdAt" = some (.str c) ∧ field data "updatedAt" = some (.str u) ∧
      c ≠ u :=
  ⟨_, "2024-01-01T00:00:00.000Z", "2024-01-01T00:00:00.001Z", rfl, rfl, rfl, rfl, by decide⟩

/-- C4, amended. For every request body with a name and an email (both truthy)
for which the lookup by email returns no document, and for which the store's
create call succeeds, `createUser` responds with status 201 and a success
envelope carrying the created document; the record handed to the store has
`createdAt` equal to the first and `updatedAt` equal to the second of two
successive clock reads, so the two are equal whenever those reads agree. -/
theorem createUser_fresh_email (w : World) (req : Req) (s : St) (result doc : JsVal)
    (hname : truthy (prop req.body "name") = true)
    (hemail : truthy (prop req.body "email") = true)
    (hlookup : w.listDocuments w.DATABASE_ID w.USERS
      [Query.equal "email" (prop req.body "email")] = .ok result)
    (hdocs : field result "documents" = some (.arr []))
    (hcreate : w.createDocument w.DATABASE_ID w.USERS w.uniqueId
      (createRecord req.body (w.clock s.ticks) (w.clock (s.ticks + 1))) = .ok doc) :
    (createUser w req s).1 = .ok () ∧
    (createUser w req s).2.res.statusCode = 201 ∧
    (∃ b, (createUser w req s).2.res.body = some b ∧ isSuccessEnvelope b ∧
      field b "data" = some doc) ∧
    (createUser w req s).2.events = s.events ++
      [.service "getUserByEmail",
       .sdk (.listDocuments w.DATABASE_ID w.USERS [Query.equal "email" (prop req.body "email")]),
       .service "createUser",
       .sdk (.createDocument w.DATABASE_ID w.USERS w.uniqueId
         (createRecord req.body (w.clock s.ticks) (w.clock (s.ticks + 1))))] ∧
    field (createRecord req.body (w.clock s.ticks) (w.clock (s.ticks + 1))) "createdAt" =
      some (.str (w.clock s.ticks)) ∧
    field (createRecord req.body (w.clock s.ticks) (w.clock (s.ticks + 1))) "updatedAt" =
      some (.str (w.clock (s.ticks + 1))) ∧
    (w.clock s.ticks = w.clock (s.ticks + 1) →
      field (createRecord req.body (w.clock s.ticks) (w.clock (s.ticks + 1))) "createdAt" =
      field (createRecord req.body (w.clock s.ticks) (w.clock (s.ticks + 1))) "updatedAt") ∧
    (createUser w req s).2.nextCalls = s.nextCalls := by
  have hrec : createRecord req.body (w.clock s.ticks) (w.clock (s.ticks + 1)) =
      .obj [("name", prop req.body "name"), ("email", prop req.body "email"),
        ("skills", jsOr (jsOr (prop req.body "skills") (.arr [])) (.arr [])),
        ("bio", jsOr (jsOr (prop req.body "bio") (.str "")) (.str "")),
        ("avatar", jsOr (jsOr (prop req.body "avatar") (.str "")) (.str "")),
        ("createdAt", .str (w.clock s.ticks)), ("updatedAt", .str (w.clock (s.ticks + 1)))] := rfl
  have key : createUser w req s =
      (.ok (), { s with
        ticks := s.ticks + 3
        events := s.events ++ [.service "getUserByEmail",
          .sdk (.listDocuments w.DATABASE_ID w.USERS
            [Query.equal "email" (prop req.body "email")]),
          .service "createUser",
          .sdk (.createDocument w.DATABASE_ID w.USERS w.uniqueId
            (createRecord req.body (w.clock s.ticks) (w.clock (s.ticks + 1))))]
        res := ⟨201, some (.obj [("success", .bool true),
          ("message", .str "User created successfully"), ("data", doc),
          ("timestamp", .str (w.clock (s.ticks + 2)))])⟩ }) := by
    have hsvc := createUser_service_ok w
      [("name", prop req.body "name"), ("email", prop req.body "email"),
        ("skills", jsOr (prop req.body "skills") (.arr [])),
        ("bio", jsOr (prop req.body "bio") (.str "")),
        ("avatar", jsOr (prop req.body "avatar") (.str ""))] doc
      { s with events := s.events ++ [.service "getUserByEmail",
        .sdk (.listDocuments w.DATABASE_ID w.USERS
          [Query.equal "email" (prop req.body "email")])] }
      (by rw [hrec] at hcreate; simpa [prop, objGet, List.lookup] using hcreate)
    simp [createUser, asyncHandler, asyncFn, createUserBody, hname, hemail, bind, Eff.bind,
      resStatus, successResponse, nowISO, resJson, pure, Eff.pure, promiseResolve,
      getUserByEmail_absent w _ result _ hlookup hdocs,
      show truthy JsVal.null = false from rfl, hsvc, hrec]
    simp [prop, objGet, List.lookup]
  rw [key]
  refine ⟨rfl, rfl, ⟨_, rfl, ⟨rfl, rfl⟩, rfl⟩, rfl, rfl, rfl, ?_, rfl⟩
  intro h
  rw [hrec]
  simp [field, objGet, List.lookup, h]

/-- Witness for C4 (amended): a fresh email on an empty store. -/
theorem createUser_fresh_email_witness :
    (createUser emptyWorld createReq St.init).2.res.statusCode = 201 :=
  (createUser_fresh_email emptyWorld createReq St.init
    (.obj [("total", .num 0), ("documents", .arr [])])
    (createRecord createReq.body "2024-01-01T00:00:00.000Z" "2024-01-01T00:00:00.001Z")
    rfl rfl rfl rfl rfl).2.1

/-- C5. For every id for which the store's get, update or delete call fails with
an error whose `code` is the number 404, each of `getUserById`, `updateUser` and
`deleteUser` responds with status 404 and a failure envelope whose `error.code`
is `'USER_NOT_FOUND'`, returns normally and hands nothing to `next`. -/
theorem not_found_mapping (w : World) (req : Req) (s : St) (e : JsVal)
    (hcode : field e "code" = some (.num 404)) :
    (w.getDocument w.DATABASE_ID w.USERS (prop req.params "id") = .error e →
      AnsweredNotFound s (getUserById w req s)) ∧
    (w.updateDocument w.DATABASE_ID w.USERS (prop req.params "id")
        (.obj (updatePatch req.body (w.clock s.ticks))) = .error e →
      AnsweredNotFound s (updateUser w req s)) ∧
    (w.deleteDocument w.DATABASE_ID w.USERS (prop req.params "id") = .error e →
      AnsweredNotFound s (deleteUser w req s)) := by
  refine ⟨fun h => ?_, fun h => ?_, fun h => ?_⟩
  · have key : getUserById w req s =
        (.ok (), { s with
          ticks := s.ticks + 1
          events := s.events ++ [.service "getUserById",
            .sdk (.getDocument w.DATABASE_ID w.USERS (prop req.params "id")),
            .consoleError "Error getting user:" e]
          res := ⟨404, some (.obj [("success", .bool false),
            ("error", .obj [("message", .str "User not found"),
              ("code", .str "USER_NOT_FOUND")]),
            ("timestamp", .str (w.clock s.ticks))])⟩ }) := by
      simp [getUserById, asyncHandler, asyncFn, getUserByIdBody, bind, Eff.bind, resStatus,
        errorResponse, nowISO, resJson, pure, Eff.pure, promiseResolve, tryCatchJs,
        getUserById_service_error w _ e _ h, getProp_code_404 e _ hcode, is404]
    rw [key]
    exact ⟨rfl, rfl, ⟨_, rfl, ⟨rfl, rfl, _, rfl, rfl⟩, rfl⟩, rfl⟩
  · have key : updateUser w req s =
        (.ok (), { s with
          ticks := s.ticks + 2
          events := s.events ++ [.service "updateUser",
            .sdk (.updateDocument w.DATABASE_ID w.USERS (prop req.params "id")
              (.obj (updatePatch req.body (w.clock s.ticks)))),
            .consoleError "Error updating user:" e]
          res := ⟨404, some (.obj [("success", .bool false),
            ("error", .obj [("message", .str "User not found"),
              ("code", .str "USER_NOT_FOUND")]),
            ("timestamp", .str (w.clock (s.ticks + 1)))])⟩ }) := by
      simp [updateUser, asyncHandler, asyncFn, updateUserBody, bind, Eff.bind, resStatus,
        errorResponse, nowISO, resJson, pure, Eff.pure, promiseResolve, tryCatchJs,
        updateUser_service_error w _ e _ _ h, getProp_code_404 e _ hcode, is404, updatePatch]
    rw [key]
    exact ⟨rfl, rfl, ⟨_, rfl, ⟨rfl, rfl, _, rfl, rfl⟩, rfl⟩, rfl⟩
  · have key : deleteUser w req s =
        (.ok (), { s with
          ticks := s.ticks + 1
          events := s.events ++ [.service "deleteUser",
            .sdk (.deleteDocument w.DATABASE_ID w.USERS (prop req.params "id")),
            .consoleError "Error deleting user:" e]
          res := ⟨404, some (.obj [("success", .bool false),
            ("error", .obj [("message", .str "User not found"),
              ("code", .str "USER_NOT_FOUND")]),
            ("timestamp", .str (w.clock s.ticks))])⟩ }) := by
      simp [deleteUser, asyncHandler, asyncFn, deleteUserBody, bind, Eff.bind, resStatus,
        errorResponse, nowISO, resJson, pure, Eff.pure, promiseResolve, tryCatchJs,
        deleteUser_service_error w _ e _ h, getProp_code_404 e _ hcode, is404]
    rw [key]
    exact ⟨rfl, rfl, ⟨_, rfl, ⟨rfl, rfl, _, rfl, rfl⟩, rfl⟩, rfl⟩

/-- Witness for C5: on an empty store all three calls fail with code 404. -/
theorem not_found_mapping_witness :
    AnsweredNotFound St.init (getUserById emptyWorld updateReq St.init) ∧
    AnsweredNotFound St.init (updateUser emptyWorld updateReq St.init) ∧
    AnsweredNotFound St.init (deleteUser emptyWorld updateReq St.init) :=
  have h := not_found_mapping emptyWorld updateReq St.init notFoundError rfl
  ⟨h.1 rfl, h.2.1 rfl, h.2.2 rfl⟩

/-- C6 as stated fails in its last clause: the stored record was stamped on the
first of June 2024, the clock of the server reads the first of January 2024, and
the patch sent to the store carries that earlier `updatedAt`. -/
theorem updateUser_updatedAt_moves_back :
    ∃ prev patch new,
      oneUserWorld.getDocument "db" "users" (.str "u1") = .ok storedUser ∧
      field storedUser "updatedAt" = some (.str prev) ∧
      (updateUser oneUserWorld updateReq St.init).2.events =
        [.service "updateUser",
         .sdk (.updateDocument "db" "users" (.str "u1") (.obj patch))] ∧
      objGet patch "updatedAt" = some (.str new) ∧
      jsStrLe prev.data new.data = false :=
  ⟨"2024-06-01T00:00:00.000Z", _, "2024-01-01T00:00:00.000Z", rfl, rfl, rfl, rfl, by decide⟩

/-- C6, amended. For every request body, `updateUser` makes exactly one SDK call,
`updateDocument`, and the patch it carries contains none of the keys `id`, `$id`
and `createdAt`, carries every other body field except `updatedAt` unchanged, and
has `updatedAt` set to the clock value read at the call, whatever the body
supplied. That stamp is at least a previous `updatedAt` whenever the clock value
read is: the code neither reads nor compares the previous value. -/
theorem updateUser_patch (w : World) (req : Req) (s : St) :
    (∃ rest, (updateUser w req s).2.events = s.events ++
        .service "updateUser" ::
        .sdk (.updateDocument w.DATABASE_ID w.USERS (prop req.params "id")
          (.obj (updatePatch req.body (w.clock s.ticks)))) :: rest ∧
      ∀ ev ∈ rest, ∃ msg err, ev = .consoleError msg err) ∧
    "id" ∉ keysOf (.obj (updatePatch req.body (w.clock s.ticks))) ∧
    "$id" ∉ keysOf (.obj (updatePatch req.body (w.clock s.ticks))) ∧
    "createdAt" ∉ keysOf (.obj (updatePatch req.body (w.clock s.ticks))) ∧
    (∀ k, k ≠ "id" → k ≠ "$id" → k ≠ "createdAt" → k ≠ "updatedAt" →
      objGet (updatePatch req.body (w.clock s.ticks)) k = objGet req.body k) ∧
    objGet (updatePatch req.body (w.clock s.ticks)) "updatedAt" = some (.str (w.clock s.ticks)) ∧
    (∀ prev : String, jsStrLe prev.data (w.clock s.ticks).data = true →
      ∃ u, objGet (updatePatch req.body (w.clock s.ticks)) "updatedAt" = some (.str u) ∧
        jsStrLe prev.data u.data = true) := by
  have hget : ∀ k, objGet (updatePatch req.body (w.clock s.ticks)) k =
      if k = "updatedAt" then some (.str (w.clock s.ticks))
      else if k = "createdAt" then none
      else if k = "$id" then none
      else if k = "id" then none
      else objGet req.body k := by
    intro k
    simp only [updatePatch, spreadWithUpdatedAt, objGet_objSet, objGet_objDelete]
  refine ⟨?_, ?_, ?_, ?_, ?_, ?_, ?_⟩
  · cases h : w.updateDocument w.DATABASE_ID w.USERS (prop req.params "id")
        (.obj (updatePatch req.body (w.clock s.ticks))) with
    | ok d =>
      refine ⟨[], ?_, by simp⟩
      simp [updateUser, asyncHandler, asyncFn, updateUserBody, bind, Eff.bind, successResponse,
        nowISO, resJson, pure, Eff.pure, promiseResolve, tryCatchJs, userService.updateUser,
        emit, sdkUpdateDocument, ← updatePatch.eq_1, h]
    | error e =>
      refine ⟨[.consoleError "Error updating user:" e], ?_, by simp⟩
      have hsvc := updateUser_service_error w (prop req.params "id") e
        (objDelete (objDelete (objDelete req.body "id") "$id") "createdAt") s h
      have hu : is404 JsVal.undefined = false := rfl
      cases e with
      | obj o =>
        by_cases h4 : is404 (prop o "code") = true
        · simp [updateUser, asyncHandler, asyncFn, updateUserBody, bind, Eff.bind, resStatus,
            errorResponse, nowISO, resJson, pure, Eff.pure, promiseResolve, tryCatchJs, hsvc,
            getProp, throwJs, callNext, updatePatch, h4]
        · simp [updateUser, asyncHandler, asyncFn, updateUserBody, bind, Eff.bind, resStatus,
            errorResponse, nowISO, resJson, pure, Eff.pure, promiseResolve, tryCatchJs, hsvc,
            getProp, throwJs, callNext, updatePatch, h4]
      | _ =>
        simp [updateUser, asyncHandler, asyncFn, updateUserBody, bind, Eff.bind, resStatus,
          errorResponse, nowISO, resJson, pure, Eff.pure, promiseResolve, tryCatchJs, hsvc,
          getProp, throwJs, callNext, updatePatch, hu]
  · rw [mem_keys_iff, hget]; simp
  · rw [mem_keys_iff, hget]; simp
  · rw [mem_keys_iff, hget]; simp
  · intro k h1 h2 h3 h4
    rw [hget]; simp [h1, h2, h3, h4]
  · rw [hget]; simp
  · intro prev hprev
    exact ⟨_, by rw [hget]; simp, hprev⟩

/-- Witness for C6 (amended): the patch built for a body that tries to overwrite
the protected fields keeps `bio`, drops `id`, and is stamped by the clock. -/
theorem updateUser_patch_witness :
    objGet (updatePatch updateReq.body "2024-01-01T00:00:00.000Z") "bio" = some (.str "new") ∧
    "id" ∉ keysOf (.obj (updatePatch updateReq.body "2024-01-01T00:00:00.000Z")) ∧
    objGet (updatePatch updateReq.body "2024-01-01T00:00:00.000Z") "updatedAt" =
      some (.str "2024-01-01T00:00:00.000Z") :=
  have h := updateUser_patch oneUserWorld updateReq St.init
  ⟨(h.2.2.2.2.1 "bio" (by decide) (by decide) (by decide) (by decide)).trans rfl, h.2.1,
    h.2.2.2.2.2.1⟩

/-- C7 as stated fails: for `GET /users?search=` the `search` parameter is
present (it is the empty string), yet the filter list passed to the store holds
no search filter, only the limit and the offset. -/
theorem getAllUsers_empty_search_unfiltered :
    objGet emptySearchReq.query "search" = some (.str "") ∧
    (getAllUsers oneUserWorld emptySearchReq St.init).2.events =
      [.service "listUsers",
       .sdk (.listDocuments "db" "users" [Query.limit (.num 25), Query.offset (.num 0)])] := by
  refine ⟨rfl, ?_⟩
  rw [getAllUsers_run oneUserWorld emptySearchReq St.init (.num 25) (.num 0)
    (.obj [("total", .num 1), ("documents", .arr [storedUser])])
    parseInt_default_limit parseInt_default_offset rfl]
  rfl

/-- C7, amended. For every query-parameter set whose `limit` and `offset` can be
converted by `parseInt` (every value but an object carrying its own `toString`),
whatever the store then answers, `getAllUsers` makes exactly one SDK call,
`listDocuments`, with exactly this filter list: a search filter on `name` and one
on `email` for the search value if and only if `search` is present with a truthy
value (an empty search string adds none), then a limit filter and an offset filter
as the last two entries, which are 25 and 0 when `limit` and `offset` are absent
and `parseInt` of the given value otherwise. When the store returns a result the
handler responds with a success envelope whose `data` is that result unchanged,
under the status of the response as it found it (200 unless set before); when the
store rejects, nothing is written and the error goes to `next`. -/
theorem getAllUsers_filters (w : World) (req : Req) (s : St) (lim off : JsVal)
    (hlim : parseInt (propD req.query "limit" (.num 25)) = .ok lim)
    (hoff : parseInt (propD req.query "offset" (.num 0)) = .ok off) :
    (∃ rest, (getAllUsers w req s).2.events = s.events ++
        .service "listUsers" ::
        .sdk (.listDocuments w.DATABASE_ID w.USERS
          (specFilters (searchOf req.query) lim off)) :: rest ∧
      ∀ ev ∈ rest, ∃ msg err, ev = .consoleError msg err) ∧
    (searchOf req.query = none ↔ truthy (prop req.query "search") = false) ∧
    (∀ v, searchOf req.query = some v → v = prop req.query "search") ∧
    (objGet req.query "limit" = none → lim = .num 25) ∧
    (objGet req.query "offset" = none → off = .num 0) ∧
    (∀ v, objGet req.query "limit" = some v → v ≠ .undefined → parseInt v = .ok lim) ∧
    (∀ v, objGet req.query "offset" = some v → v ≠ .undefined → parseInt v = .ok off) ∧
    (∀ result, w.listDocuments w.DATABASE_ID w.USERS
        (specFilters (searchOf req.query) lim off) = .ok result →
      (getAllUsers w req s).1 = .ok () ∧
      (getAllUsers w req s).2.res.statusCode = s.res.statusCode ∧
      (s.res.statusCode = 200 → (getAllUsers w req s).2.res.statusCode = 200) ∧
      (∃ b, (getAllUsers w req s).2.res.body = some b ∧ isSuccessEnvelope b ∧
        field b "data" = some result) ∧
      (getAllUsers w req s).2.nextCalls = s.nextCalls) ∧
    (∀ e, w.listDocuments w.DATABASE_ID w.USERS
        (specFilters (searchOf req.query) lim off) = .error e →
      (getAllUsers w req s).1 = .ok () ∧
      (getAllUsers w req s).2.res = s.res ∧
      (getAllUsers w req s).2.nextCalls = s.nextCalls ++ [e]) := by
  have hpd : ∀ (k : String) (d v : JsVal), objGet req.query k = some v → v ≠ .undefined →
      propD req.query k d = v := by
    intro k d v h hv
    cases v <;> simp [propD, prop, h] at hv ⊢
  refine ⟨?_, ?_, ?_, ?_, ?_, ?_, ?_, ?_, ?_⟩
  · cases h : w.listDocuments w.DATABASE_ID w.USERS
        (specFilters (searchOf req.query) lim off) with
    | ok result =>
      rw [getAllUsers_run w req s lim off result hlim hoff h]
      exact ⟨[], rfl, by simp⟩
    | error e =>
      rw [getAllUsers_run_error w req s lim off e hlim hoff h]
      exact ⟨[.consoleError "Error listing users:" e], rfl, by simp⟩
  · unfold searchOf
    by_cases h : truthy (prop req.query "search") = true <;> simp [h]
  · intro v hv
    unfold searchOf at hv
    by_cases h : truthy (prop req.query "search") = true
    · simp [h] at hv; exact hv.symm
    · simp [h] at hv
  · intro h
    have hd : propD req.query "limit" (.num 25) = .num 25 := by simp [propD, prop, h]
    rw [hd, parseInt_default_limit] at hlim
    cases hlim; rfl
  · intro h
    have hd : propD req.query "offset" (.num 0) = .num 0 := by simp [propD, prop, h]
    rw [hd, parseInt_default_offset] at hoff
    cases hoff; rfl
  · intro v h hv
    rw [← hpd "limit" (.num 25) v h hv]; exact hlim
  · intro v h hv
    rw [← hpd "offset" (.num 0) v h hv]; exact hoff
  · intro result h
    rw [getAllUsers_run w req s lim off result hlim hoff h]
    exact ⟨rfl, rfl, fun h2 => h2, ⟨_, rfl, ⟨rfl, rfl⟩, rfl⟩, rfl⟩
  · intro e h
    rw [getAllUsers_run_error w req s lim off e hlim hoff h]
    exact ⟨rfl, rfl, rfl⟩

/-- Witness for C7 (amended): `GET /users?search=alice` against a store holding
one user, and against a store whose list call fails. -/
theorem getAllUsers_filters_witness :
    (getAllUsers oneUserWorld searchReq St.init).2.res.statusCode = 200 ∧
    (∃ rest, (getAllUsers downWorld searchReq St.init).2.events =
      [] ++ .service "listUsers" ::
        .sdk (.listDocuments "db" "users"
          (specFilters (searchOf searchReq.query) (.num 25) (.num 0))) :: rest ∧
      ∀ ev ∈ rest, ∃ msg err, ev = .consoleError msg err) ∧
    (getAllUsers downWorld searchReq St.init).2.nextCalls = [] ++ [serverError] :=
  ⟨((getAllUsers_filters oneUserWorld searchReq St.init (.num 25) (.num 0)
      parseInt_default_limit parseInt_default_offset).2.2.2.2.2.2.2.1
      (.obj [("total", .num 1), ("documents", .arr [storedUser])]) rfl).2.2.1 rfl,
   (getAllUsers_filters downWorld searchReq St.init (.num 25) (.num 0)
      parseInt_default_limit parseInt_default_offset).1,
   ((getAllUsers_filters downWorld searchReq St.init (.num 25) (.num 0)
      parseInt_default_limit parseInt_default_offset).2.2.2.2.2.2.2.2
      serverError rfl).2.2⟩

/-- A `limit` that cannot be converted: for `GET /users?limit[toString]=x` the
handler makes no store call, writes nothing and hands the `TypeError` to `next`. -/
theorem getAllUsers_unconvertible_limit :
    getAllUsers oneUserWorld toStringLimitReq St.init =
      (.ok (), { St.init with nextCalls := [typeError] }) :=
  getAllUsers_run_limit_throws oneUserWorld toStringLimitReq St.init typeError
    parseInt_own_toString_throws

/-- C8 as stated fails: a handler that is not an `async` function and throws
synchronously makes the wrapper raise to its caller, and `next` is never called. -/
theorem asyncHandler_sync_throw_escapes :
    (asyncHandler throwingHandler createReq St.init).1 = .error (.str "boom") ∧
    (asyncHandler throwingHandler createReq St.init).2.nextCalls = [] :=
  ⟨rfl, rfl⟩

/-- C8, amended. For every handler `fn` and request such that the call
`fn(req, res, next)` returns without throwing synchronously (as every `async`
function does): if the returned promise rejects with `e`, the wrapper calls `next`
with exactly `e`, exactly once (one call appended to those `fn` made itself), and
raises nothing; if the call returns a promise that is fulfilled or still pending,
or a plain value, the wrapper does not call `next` and raises nothing. For an
`async` function the promise rejects with what its body throws. -/
theorem asyncHandler_forwards_rejection (fn : Handler) (req : Req) (s s1 : St) (r : Ret)
    (hret : fn req s = (.ok r, s1)) :
    (∀ e, promiseResolve r = .rejected e →
      asyncHandler fn req s = (.ok (), { s1 with nextCalls := s1.nextCalls ++ [e] })) ∧
    ((∀ e, promiseResolve r ≠ .rejected e) → asyncHandler fn req s = (.ok (), s1)) ∧
    (∀ (body : Req → Eff Unit) (e : JsVal) (s2 : St), body req s = (.error e, s2) →
      asyncHandler (asyncFn body) req s =
        (.ok (), { s2 with nextCalls := s2.nextCalls ++ [e] })) ∧
    (∀ (body : Req → Eff Unit) (s2 : St), body req s = (.ok (), s2) →
      asyncHandler (asyncFn body) req s = (.ok (), s2)) := by
  refine ⟨?_, ?_, ?_, ?_⟩
  · intro e he
    simp [asyncHandler, bind, Eff.bind, hret, he, callNext]
  · intro hne
    cases hp : promiseResolve r with
    | rejected e => exact absurd hp (hne e)
    | fulfilled v => simp [asyncHandler, bind, Eff.bind, hret, hp, pure, Eff.pure]
    | pending => simp [asyncHandler, bind, Eff.bind, hret, hp, pure, Eff.pure]
  · intro body e s2 hb
    simp [asyncHandler, asyncFn, bind, Eff.bind, hb, promiseResolve, callNext]
  · intro body s2 hb
    simp [asyncHandler, asyncFn, bind, Eff.bind, hb, promiseResolve, pure, Eff.pure]

/-- Witness for C8 (amended): an `async` handler whose body throws returns a
rejected promise, and the wrapper hands that error to `next` once. -/
theorem asyncHandler_forwards_rejection_witness :
    asyncHandler rejectingHandler createReq St.init =
      (.ok (), { St.init with nextCalls := [.str "boom"] }) :=
  (asyncHandler_forwards_rejection rejectingHandler createReq St.init
    St.init (.promise (.rejected (.str "boom"))) rfl).1 (.str "boom") rfl

/-- C9. For every operation of the user controller, every request and every
store outcome, starting from a response with status 200 and nothing sent: if the
handler writes a body, that body is exactly one of the two envelope shapes, and
`success` discriminates them. It is `true` exactly when the status is 200 or 201,
and then the body has exactly the keys `success`, `message`, `data`, `timestamp`
(no `error`); it is `false` exactly when the status is 400, 404 or 409, and then
the body has exactly the keys `success`, `error`, `timestamp` (no `data`) with
`error` holding exactly `message` and `code`. -/
theorem envelope_discriminates (op : UserOp) (w : World) (req : Req) (s : St) (b : JsVal)
    (hfresh : s.res = ⟨200, none⟩)
    (hbody : (op.handler w req s).2.res.body = some b) :
    (isSuccessEnvelope b ∨ isFailureEnvelope b) ∧
    (field b "success" = some (.bool true) ↔
      ((op.handler w req s).2.res.statusCode = 200 ∨
        (op.handler w req s).2.res.statusCode = 201)) ∧
    (field b "success" = some (.bool false) ↔
      ((op.handler w req s).2.res.statusCode = 400 ∨
        (op.handler w req s).2.res.statusCode = 404 ∨
        (op.handler w req s).2.res.statusCode = 409)) ∧
    (field b "success" = some (.bool true) → isSuccessEnvelope b ∧ field b "error" = none) ∧
    (field b "success" = some (.bool false) → isFailureEnvelope b ∧ field b "data" = none) := by
  have hok : EnvelopeOK (op.handler w req s).2.res := by
    cases op
    · exact (asyncHandler_res _ req s).symm ▸ envelope_getAllUsers w req s hfresh
    · exact (asyncHandler_res _ req s).symm ▸ envelope_getUserById w req s hfresh
    · exact (asyncHandler_res _ req s).symm ▸ envelope_getUserByEmail w req s hfresh
    · exact (asyncHandler_res _ req s).symm ▸ envelope_createUser w req s hfresh
    · exact (asyncHandler_res _ req s).symm ▸ envelope_updateUser w req s hfresh
    · exact (asyncHandler_res _ req s).symm ▸ envelope_deleteUser w req s hfresh
  have hnoerr : ∀ v : JsVal, isSuccessEnvelope v → field v "error" = none := by
    intro v hv
    cases v with
    | obj o =>
      have hk := hv.1
      cases h : objGet o "error" with
      | none => simpa [field] using h
      | some x =>
        have hm : "error" ∈ keysOf (.obj o) := (mem_keys_iff o "error").2 (by simp [h])
        rw [hk] at hm
        simp at hm
    | _ => rfl
  have hnodata : ∀ v : JsVal, isFailureEnvelope v → field v "data" = none := by
    intro v hv
    cases v with
    | obj o =>
      have hk := hv.1
      cases h : objGet o "data" with
      | none => simpa [field] using h
      | some x =>
        have hm : "data" ∈ keysOf (.obj o) := (mem_keys_iff o "data").2 (by simp [h])
        rw [hk] at hm
        simp at hm
    | _ => rfl
  rcases hok b hbody with ⟨hshape, hst⟩ | ⟨hshape, hst⟩
  · have hf := hshape.2
    refine ⟨Or.inl hshape, ⟨fun _ => hst, fun _ => hf⟩, ⟨fun h => ?_, fun h => ?_⟩,
      fun _ => ⟨hshape, hnoerr b hshape⟩, fun h => ?_⟩
    · rw [hf] at h; simp at h
    · omega
    · rw [hf] at h; simp at h
  · have hf := hshape.2.1
    refine ⟨Or.inr hshape, ⟨fun h => ?_, fun h => ?_⟩, ⟨fun _ => hst, fun _ => hf⟩,
      fun h => ?_, fun _ => ⟨hshape, hnodata b hshape⟩⟩
    · rw [hf] at h; simp at h
    · omega
    · rw [hf] at h; simp at h

/-- Witness for C9: creating a user on an empty store writes a success envelope
under status 201. -/
theorem envelope_discriminates_witness :
    (UserOp.createUser.handler emptyWorld createReq St.init).2.res.statusCode = 201 ∧
    isSuccessEnvelope (.obj [("success", .bool true),
      ("message", .str "User created successfully"),
      ("data", createRecord createReq.body "2024-01-01T00:00:00.000Z"
        "2024-01-01T00:00:00.001Z"),
      ("timestamp", .str "2024-01-01T00:00:00.001Z")]) :=
  have h := envelope_discriminates UserOp.createUser emptyWorld createReq St.init
    (.obj [("success", .bool true), ("message", .str "User created successfully"),
      ("data", createRecord createReq.body "2024-01-01T00:00:00.000Z"
        "2024-01-01T00:00:00.001Z"),
      ("timestamp", .str "2024-01-01T00:00:00.001Z")]) rfl rfl
  ⟨(h.2.1.1 rfl).resolve_left (by decide), (h.2.2.2.1 rfl).1⟩

/-- C10 fails on the code: the single left-to-right pass of
`replace(/javascript:/gi, '')` removes the inner occurrence of
`jajavascript:vascript:` and thereby assembles a new one, so the string returned
by `sanitizeInput` still contains `javascript:`. -/
theorem sanitizeInput_leaves_javascript_protocol :
    sanitizeInput (.str "jajavascript:vascript:") = .str "javascript:" ∧
    containsJavascriptProtocol "javascript:".data = true :=
  ⟨rfl, by decide⟩

/-- The same single pass in `replace(/on\w+=/gi, '')`: removing the inner
`onclick=` of `oonclick=nclick=alert(1)` assembles a new one, which is returned. -/
theorem sanitizeInput_leaves_event_handler :
    sanitizeInput (.str "oonclick=nclick=alert(1)") = .str "onclick=alert(1)" :=
  rfl

end Appwrite
